import Mathlib

/-!
Shallow embedding of `src/lambda_function.py` (guardian_news).

The program is a single-invocation pipeline: `lambda_handler` validates the
`api_key` input, iterates over five calendar dates (today back to today-4),
calls `fetch_guardian_news` once per date (one HTTP GET against the Guardian
search API, plus one Amazon Comprehend `detect_sentiment` call per result
item via `analyze_sentiment_with_comprehend`), accumulates the articles, and
finally calls `write_to_s3` once, which serializes the articles as
newline-delimited JSON and uploads a single object.

External effects are modelled by oracle functions passed as arguments
(HTTP, the sentiment service, the blob store) and every embedded function
additionally returns the list of outward calls it performed (`Event`),
so that claims about "no network calls" or "called exactly once" are
statable.  Python exceptions are modelled with `Except PyErr`; code that
Python runs inside `try ... except` blocks is embedded with the
corresponding total handling, and exceptions the Python code does not
catch (for example `KeyError` on a malformed payload) surface as
`Except.error` results that propagate to the caller.

Python `dict` values flowing through the program are modelled by the
`Json` type below; numeric score values are modelled as integers (no claim
inspects their numeric content).
-/

/-- JSON-like values: the model of Python values that flow through the
program (event fields, parsed HTTP payloads, article dicts). -/
inductive Json where
  | null : Json
  | bool : Bool → Json
  | num : Int → Json
  | str : String → Json
  | arr : List Json → Json
  | obj : List (String × Json) → Json

/-- Python exceptions that can escape the embedded code. -/
inductive PyErr where
  | keyError : String → PyErr
  | typeError : String → PyErr
  | attributeError : String → PyErr
  | serviceError : String → PyErr
  | storageError : String → PyErr
deriving DecidableEq

/-- Result of `comprehend_client.detect_sentiment` post-processing: the dict
`{"sentiment": ..., "sentiment_scores": ...}` returned by
`analyze_sentiment_with_comprehend` (a two-key dict literal in the source,
embedded as a two-field structure). -/
structure SentimentData where
  sentiment : Json
  sentiment_scores : Json

/-- Return value of `fetch_guardian_news`: either a Python list of article
dicts, or the failure dict `{"error": kind, "message": msg}`.  The caller
distinguishes the two with `isinstance(articles, list)`. -/
inductive FetchResult where
  | articles : List Json → FetchResult
  | failure : String → Json → FetchResult

/-- A `requests` response: transport status code, reason phrase, final url
and the JSON-decoded payload (`response.json()`). -/
structure HttpResponse where
  status : Nat
  reason : String
  url : String
  body : Json

/-- Outcome of `requests.get`: either an exception raised during the request
(`requests.exceptions.RequestException`, which also covers JSON decode
errors of `response.json()` in requests >= 2.27) or a transport response. -/
inductive HttpOutcome where
  | exn : String → HttpOutcome
  | resp : HttpResponse → HttpOutcome

/-- Outward calls performed by the program. -/
inductive Event where
  | httpGet : String → List (String × Json) → Event
  | detectSentiment : Json → String → Event
  | putObject : String → String → String → String → Event

/-- The HTTP world: maps a url and query parameters to an outcome. -/
def HttpOracle : Type := String → List (String × Json) → HttpOutcome

/-- The sentiment service: maps the text argument of `detect_sentiment` to
either the service response dict or an error (any transport, quota,
authentication, validation or service error). -/
def DetectOracle : Type := Json → Except String Json

/-- The blob store: `put_object` for bucket, key, body, content type. -/
def PutOracle : Type := String → String → String → String → Except String Unit

/-- The value returned by `lambda_handler` on a normal return. -/
structure HandlerResponse where
  statusCode : Nat
  body : String
deriving DecidableEq

/-! ### Decimal and hexadecimal digit output (Python str of int, json escapes) -/

/-- The character of a decimal digit value below ten. -/
def digitChar (n : Nat) : Char := Char.ofNat (48 + n)

/-- Lowercase hexadecimal digit character, as produced by the CPython json
encoder pattern for non-ASCII characters. -/
def hexChar (n : Nat) : Char := if n < 10 then Char.ofNat (48 + n) else Char.ofNat (87 + n)

/-- Four lowercase hex digits of a value below 0x10000. -/
def hex4 (n : Nat) : List Char :=
  [hexChar (n / 4096 % 16), hexChar (n / 256 % 16), hexChar (n / 16 % 16), hexChar (n % 16)]

/-- Decimal digits of a natural number, fuel-indexed so that the definition
is structural and kernel-reducible.  With fuel above `n` this is the usual
base-ten printout. -/
def natCharsAux : Nat → Nat → List Char
  | 0, _ => []
  | fuel + 1, n => if n < 10 then [digitChar n] else natCharsAux fuel (n / 10) ++ [digitChar (n % 10)]

/-- Decimal digits of a natural number (the embedding of Python `str(n)`). -/
def natChars (n : Nat) : List Char := natCharsAux (n + 1) n

/-- Python `str` of a nonnegative integer. -/
def natStr (n : Nat) : String := String.mk (natChars n)

/-- Decimal printout of an integer (the embedding of Python `str(i)` and of
the json serialization of an int). -/
def intChars (i : Int) : List Char :=
  if i < 0 then '-' :: natChars i.natAbs else natChars i.toNat

/-- Python `str` of an integer. -/
def intStr (i : Int) : String := String.mk (intChars i)

/-! ### The json.dumps serializer

Embeds CPython `json.dumps` with default options: separators `", "` and
`": "`, `ensure_ascii=True` (characters outside `0x20..0x7e` become
`\uXXXX` escapes, with surrogate pairs above `0xFFFF`). -/

/-- Escape of one string character inside a json string literal, following
the CPython `ensure_ascii` encoder table. -/
def escChar (c : Char) : List Char :=
  if c = '\\' then ['\\', '\\']
  else if c = '"' then ['\\', '"']
  else if c = '\x08' then ['\\', 'b']
  else if c = '\x0c' then ['\\', 'f']
  else if c = '\n' then ['\\', 'n']
  else if c = '\r' then ['\\', 'r']
  else if c = '\t' then ['\\', 't']
  else if 0x20 ≤ c.toNat ∧ c.toNat ≤ 0x7e then [c]
  else if c.toNat < 0x10000 then '\\' :: 'u' :: hex4 c.toNat
  else
    ('\\' :: 'u' :: hex4 (0xd800 + (c.toNat - 0x10000) / 0x400))
      ++ ('\\' :: 'u' :: hex4 (0xdc00 + (c.toNat - 0x10000) % 0x400))

/-- Escape of a whole character sequence. -/
def escList : List Char → List Char
  | [] => []
  | c :: cs => escChar c ++ escList cs

/-- A json string literal: quote, escaped characters, quote. -/
def strLit (s : String) : List Char := '"' :: escList s.data ++ ['"']

mutual

/-- Characters of `json.dumps` of a value (default separators,
`ensure_ascii=True`). -/
def dumpsL : Json → List Char
  | .null => 'n' :: ['u', 'l', 'l']
  | .bool true => 't' :: ['r', 'u', 'e']
  | .bool false => 'f' :: ['a', 'l', 's', 'e']
  | .num i => intChars i
  | .str s => strLit s
  | .arr [] => ['[', ']']
  | .arr (x :: xs) => '[' :: (dumpsL x ++ dumpsArr xs) ++ [']']
  | .obj [] => ['\x7b', '\x7d']
  | .obj ((k, v) :: kvs) =>
      '\x7b' :: (strLit k ++ ':' :: ' ' :: dumpsL v ++ dumpsObj kvs) ++ ['\x7d']

/-- Remaining array elements, each preceded by the `", "` separator. -/
def dumpsArr : List Json → List Char
  | [] => []
  | x :: xs => ',' :: ' ' :: dumpsL x ++ dumpsArr xs

/-- Remaining object members, each preceded by the `", "` separator. -/
def dumpsObj : List (String × Json) → List Char
  | [] => []
  | (k, v) :: kvs => ',' :: ' ' :: (strLit k ++ ':' :: ' ' :: dumpsL v) ++ dumpsObj kvs

end

/-- `json.dumps` with default options. -/
def dumps (j : Json) : String := String.mk (dumpsL j)

/-! ### Python dict and iteration primitives on Json values -/

/-- Python subscript `j[k]` with a string key: succeeds only on a dict,
raising `KeyError` when the key is missing and `TypeError` on non-dicts. -/
def Json.getItem : Json → String → Except PyErr Json
  | .obj kvs, k =>
      match kvs.lookup k with
      | some v => .ok v
      | none => .error (.keyError k)
  | _, _ => .error (.typeError "value is not subscriptable with a str key")

/-- Python `j.get(k, default)`: a dict method, `AttributeError` on
non-dicts. -/
def Json.getD : Json → String → Json → Except PyErr Json
  | .obj kvs, k, d => .ok ((kvs.lookup k).getD d)
  | _, _, _ => .error (.attributeError "value has no attribute get")

/-- Python `for x in j`: lists iterate elements, dicts iterate keys,
strings iterate characters; other values raise `TypeError`. -/
def Json.iterElems : Json → Except PyErr (List Json)
  | .arr xs => .ok xs
  | .obj kvs => .ok (kvs.map fun kv => Json.str kv.fst)
  | .str s => .ok (s.data.map fun c => Json.str (String.mk [c]))
  | _ => .error (.typeError "value is not iterable")

/-- Python truthiness of the modelled values (`if not api_key`,
`if all_articles`). -/
def falsy : Json → Bool
  | .null => true
  | .bool b => !b
  | .num i => i == 0
  | .str s => s == ""
  | .arr l => l.isEmpty
  | .obj l => l.isEmpty

/-- Python `j == "some string"` for a Json value against a str literal. -/
def jsonIsStr (j : Json) (s : String) : Bool :=
  match j with
  | .str t => t == s
  | _ => false

/-- Whether a value is a dict (a JSON object). -/
def isObjB : Json → Bool
  | .obj _ => true
  | _ => false

/-! ### Newline splitting and joining -/

/-- Split a character sequence at every occurrence of a character
(the semantics of Python `text.split(c)`). -/
def splitCh (c : Char) : List Char → List (List Char)
  | [] => [[]]
  | a :: as =>
    let r := splitCh c as
    if a = c then [] :: r else (a :: r.headD []) :: r.tail

/-- Split a string on newline characters (Python `body.split("\n")`). -/
def splitNL (s : String) : List String := (splitCh '\n' s.data).map fun l => String.mk l

/-- Python `"\n".join(lines)`. -/
def joinNL : List String → String
  | [] => ""
  | [s] => s
  | s :: rest => s ++ "\n" ++ joinNL rest

/-! ### Dates

`datetime.utcnow()` is modelled by an oracle `today : Int`, a count of
calendar days since 1970-01-01 (the time of day is irrelevant because the
source only ever formats the date part, and subtracting whole days never
changes the time part).  `strftime("%Y-%m-%d")` is embedded with the
standard civil-from-days conversion and zero-padded fields. -/

/-- Gregorian calendar date (year, month, day) of a day count since
1970-01-01, using the standard civil-from-days algorithm. -/
def civilFromDays (z0 : Int) : Int × Int × Int :=
  let z := z0 + 719468
  let era := Int.fdiv z 146097
  let doe := z - era * 146097
  let yoe := Int.fdiv (doe - Int.fdiv doe 1460 + Int.fdiv doe 36524 - Int.fdiv doe 146096) 365
  let y := yoe + era * 400
  let doy := doe - (365 * yoe + Int.fdiv yoe 4 - Int.fdiv yoe 100)
  let mp := Int.fdiv (5 * doy + 2) 153
  let d := doy - Int.fdiv (153 * mp + 2) 5 + 1
  let m := mp + (if mp < 10 then 3 else -9)
  (if m ≤ 2 then y + 1 else y, m, d)

/-- Two-digit zero-padded field (months and days). -/
def pad2 (n : Int) : String := if n < 10 ∧ 0 ≤ n then "0" ++ intStr n else intStr n

/-- Four-digit zero-padded year field. -/
def pad4 (n : Int) : String :=
  if n < 0 then intStr n
  else if n < 10 then "000" ++ intStr n
  else if n < 100 then "00" ++ intStr n
  else if n < 1000 then "0" ++ intStr n
  else intStr n

/-- `date.strftime("%Y-%m-%d")` of a day count since 1970-01-01. -/
def strftime_ymd (z : Int) : String :=
  let ymd := civilFromDays z
  pad4 ymd.1 ++ "-" ++ pad2 ymd.2.1 ++ "-" ++ pad2 ymd.2.2

/-! ### The program: module constants -/

/-- `s3_bucket_name` module constant. -/
def s3_bucket_name : String := "guardianews"

/-- `s3_key` module constant. -/
def s3_key : String := "guardian-news.json"

/-- The Guardian search endpoint url. -/
def guardian_url : String := "https://content.guardianapis.com/search"

/-! ### analyze_sentiment_with_comprehend -/

/-- The body of the `try` block of `analyze_sentiment_with_comprehend`:
the service call followed by the two dict subscripts on its response.  Any
error here is caught by the `except Exception` handler. -/
def analyzeAttempt (detect : DetectOracle) (text : Json) : Except PyErr SentimentData :=
  match detect text with
  | .error m => .error (.serviceError m)
  | .ok response =>
    match response.getItem "Sentiment" with
    | .error e => .error e
    | .ok s =>
      match response.getItem "SentimentScore" with
      | .error e => .error e
      | .ok sc => .ok ⟨s, sc⟩

/-- `analyze_sentiment_with_comprehend(text)`: one `detect_sentiment` call
with the fixed language hint "en"; any error is converted to the sentinel
`{"sentiment": "ERROR", "sentiment_scores": {}}` and never raised. -/
def analyze_sentiment_with_comprehend (detect : DetectOracle) (text : Json) :
    List Event × SentimentData :=
  ([Event.detectSentiment text "en"],
   match analyzeAttempt detect text with
   | .ok sd => sd
   | .error _ => ⟨Json.str "ERROR", Json.obj []⟩)

/-! ### fetch_guardian_news -/

/-- The `params` dict of the single search request: the same `from_date`
value is sent as both the from-date and the to-date. -/
def fetch_params (api_key query page_size : Json) (from_date : String) : List (String × Json) :=
  [("api-key", api_key), ("q", query), ("page-size", page_size),
   ("show-fields", Json.str "trailText"),
   ("from-date", Json.str from_date), ("to-date", Json.str from_date)]

/-- The message of the `requests.exceptions.HTTPError` that
`raise_for_status` raises on a 4xx or 5xx transport status. -/
def http_error_msg (status : Nat) (reason url : String) : String :=
  if status < 500 then natStr status ++ " Client Error: " ++ reason ++ " for url: " ++ url
  else natStr status ++ " Server Error: " ++ reason ++ " for url: " ++ url

/-- Processing of one search result inside the `try` block: the `fields`
subscript, the `trailText` lookup with its default, the sentiment call and
the article dict literal.  Only the sentiment call is internally guarded;
`KeyError` on the result dict propagates. -/
def build_article (detect : DetectOracle) (result : Json) : List Event × Except PyErr Json :=
  match result.getItem "fields" with
  | .error e => ([], .error e)
  | .ok fields =>
    match fields.getD "trailText" (Json.str "No summary available") with
    | .error e => ([], .error e)
    | .ok summary =>
      let asd := analyze_sentiment_with_comprehend detect summary
      (asd.1,
        match result.getItem "webTitle" with
        | .error e => .error e
        | .ok headline =>
          match result.getItem "webUrl" with
          | .error e => .error e
          | .ok url =>
            match result.getItem "webPublicationDate" with
            | .error e => .error e
            | .ok pubDate =>
              .ok (Json.obj [("headline", headline), ("summary", summary), ("url", url),
                ("sentiment", asd.2.sentiment), ("sentiment_scores", asd.2.sentiment_scores),
                ("publication_date", pubDate)]))

/-- The `for result in data["response"]["results"]` loop: builds one
article per result item, in order, stopping at the first uncaught
exception. -/
def process_results (detect : DetectOracle) : List Json → List Event × Except PyErr (List Json)
  | [] => ([], .ok [])
  | r :: rs =>
    let b := build_article detect r
    let rest := process_results detect rs
    match b.2 with
    | .error e => (b.1, .error e)
    | .ok art => (b.1 ++ rest.1, rest.2.map fun tail => art :: tail)

/-- `fetch_guardian_news(api_key, query, page_size, from_date)`: one search
request, `raise_for_status`, payload inspection and the per-result loop.
Only `requests.exceptions.RequestException` is caught; dict and iteration
errors on a malformed payload propagate as `Except.error`. -/
def fetch_guardian_news (http : HttpOracle) (detect : DetectOracle)
    (api_key query page_size : Json) (from_date : String) :
    List Event × Except PyErr FetchResult :=
  let params := fetch_params api_key query page_size from_date
  let ev0 := Event.httpGet guardian_url params
  match http guardian_url params with
  | .exn msg => ([ev0], .ok (.failure "RequestException" (Json.str msg)))
  | .resp r =>
    if 400 ≤ r.status ∧ r.status < 600 then
      ([ev0], .ok (.failure "RequestException" (Json.str (http_error_msg r.status r.reason r.url))))
    else
      match r.body.getItem "response" with
      | .error e => ([ev0], .error e)
      | .ok resp =>
        match resp.getItem "status" with
        | .error e => ([ev0], .error e)
        | .ok st =>
          if jsonIsStr st "ok" then
            match resp.getItem "results" with
            | .error e => ([ev0], .error e)
            | .ok results =>
              match results.iterElems with
              | .error e => ([ev0], .error e)
              | .ok items =>
                let (evs, arts) := process_results detect items
                match arts with
                | .ok as => (ev0 :: evs, .ok (.articles as))
                | .error e => (ev0 :: evs, .error e)
          else
            match resp.getD "message" (Json.str "Unknown error") with
            | .ok m => ([ev0], .ok (.failure "API response error" m))
            | .error e => ([ev0], .error e)

/-! ### write_to_s3 -/

/-- `write_to_s3(articles)`: newline-joined `json.dumps` of each article,
one `put_object` call to the fixed bucket and key with content type
`application/json`; an upload failure is logged and re-raised. -/
def write_to_s3 (put : PutOracle) (articles : List Json) : List Event × Except PyErr Unit :=
  let json_lines := joinNL (articles.map dumps)
  let ev := Event.putObject s3_bucket_name s3_key json_lines "application/json"
  match put s3_bucket_name s3_key json_lines "application/json" with
  | .ok _ => ([ev], .ok ())
  | .error m => ([ev], .error (.storageError m))

/-! ### lambda_handler -/

/-- `event.get("api_key")`. -/
def apiKeyOf (event : List (String × Json)) : Json := (event.lookup "api_key").getD Json.null

/-- `event.get("query", "latest")`. -/
def queryOf (event : List (String × Json)) : Json :=
  (event.lookup "query").getD (Json.str "latest")

/-- `event.get("page_size", 5)`. -/
def pageSizeOf (event : List (String × Json)) : Json :=
  (event.lookup "page_size").getD (Json.num 5)

/-- The `for i in range(5)` loop of the handler: per offset, format the
target date, fetch, and extend the running article list when the fetch
returned a list, skipping failure values.  An uncaught exception inside a
fetch aborts the remaining iterations. -/
def fetch_range (http : HttpOracle) (detect : DetectOracle)
    (api_key query page_size : Json) (today : Int) :
    List Nat → List Event × Except PyErr (List Json)
  | [] => ([], .ok [])
  | i :: rest =>
    let target_date := strftime_ymd (today - (i : Int))
    let f := fetch_guardian_news http detect api_key query page_size target_date
    let r2 := fetch_range http detect api_key query page_size today rest
    match f.2 with
    | .error e => (f.1, .error e)
    | .ok fr =>
      let contrib := match fr with
        | .articles as => as
        | .failure _ _ => []
      (f.1 ++ r2.1, r2.2.map fun tail => contrib ++ tail)

/-- The article list one date contributes to the accumulated total: the
fetched list, or nothing on a failure value (or an uncaught exception). -/
def dayArticles (http : HttpOracle) (detect : DetectOracle)
    (api_key query page_size : Json) (d : String) : List Json :=
  match (fetch_guardian_news http detect api_key query page_size d).2 with
  | .ok (.articles as) => as
  | _ => []

/-- `lambda_handler(event, context)`: input validation, the five-day fetch
loop, and the final write step with its status envelopes. -/
def lambda_handler (http : HttpOracle) (detect : DetectOracle) (put : PutOracle)
    (today : Int) (event : List (String × Json)) :
    List Event × Except PyErr HandlerResponse :=
  let api_key := apiKeyOf event
  let query := queryOf event
  let page_size := pageSizeOf event
  if falsy api_key then
    ([], .ok ⟨400, dumps (Json.obj [("error", Json.str "API key is required")])⟩)
  else
    match fetch_range http detect api_key query page_size today (List.range 5) with
    | (evs, .error e) => (evs, .error e)
    | (evs, .ok all_articles) =>
      if all_articles.isEmpty then
        (evs, .ok ⟨500, dumps (Json.obj [("error", Json.str "No articles fetched")])⟩)
      else
        let wr := write_to_s3 put all_articles
        match wr.2 with
        | .error e => (evs ++ wr.1, .error e)
        | .ok _ =>
          (evs ++ wr.1, .ok ⟨200, "Data written to S3: s3://" ++ s3_bucket_name ++ "/" ++ s3_key⟩)

/-! ### Event counting -/

/-- Whether an event is a search-API request. -/
def isHttpEvent : Event → Bool
  | .httpGet _ _ => true
  | _ => false

/-- Whether an event is a sentiment-service call. -/
def isDetectEvent : Event → Bool
  | .detectSentiment _ _ => true
  | _ => false

/-- Whether an event is a blob-store upload. -/
def isPutEvent : Event → Bool
  | .putObject _ _ _ _ => true
  | _ => false

/-- Number of search-API requests in a trace. -/
def countHttp (evs : List Event) : Nat := (evs.filter isHttpEvent).length

/-- Number of sentiment-service calls in a trace. -/
def countDetect (evs : List Event) : Nat := (evs.filter isDetectEvent).length

/-- Number of blob-store uploads in a trace. -/
def countPut (evs : List Event) : Nat := (evs.filter isPutEvent).length

/-! ### A json parser

Used to state that each line of the persisted body is independently
parseable.  A standard recursive-descent parser over the character list,
fuel-indexed on nesting depth; `parseJsonWhole` runs it with fuel derived
from the input length, which always suffices (each nesting level of a
serialized value occupies at least one character). -/

/-- Json whitespace. -/
def isWsC (c : Char) : Bool := c = ' ' ∨ c = '\t' ∨ c = '\n' ∨ c = '\r'

/-- Skip leading whitespace. -/
def skipWs : List Char → List Char
  | [] => []
  | c :: cs => if isWsC c then skipWs cs else c :: cs

/-- Decimal digit test. -/
def isDigitC (c : Char) : Bool := '0' ≤ c ∧ c ≤ '9'

/-- Value of one hexadecimal digit character. -/
def hexVal (c : Char) : Option Nat :=
  if '0' ≤ c ∧ c ≤ '9' then some (c.toNat - 48)
  else if 'a' ≤ c ∧ c ≤ 'f' then some (c.toNat - 87)
  else if 'A' ≤ c ∧ c ≤ 'F' then some (c.toNat - 55)
  else none

/-- Value of four hexadecimal digit characters. -/
def hex4Val (a b c d : Char) : Option Nat :=
  match hexVal a, hexVal b, hexVal c, hexVal d with
  | some x, some y, some z, some w => some (x * 4096 + y * 256 + z * 16 + w)
  | _, _, _, _ => none

/-- Munch decimal digits, most significant first, onto an accumulator. -/
def parseDigits (acc : Nat) : List Char → Nat × List Char
  | [] => (acc, [])
  | c :: cs => if isDigitC c then parseDigits (acc * 10 + (c.toNat - 48)) cs else (acc, c :: cs)

/-- Parse an optionally signed decimal integer. -/
def parseNumber : List Char → Option (Json × List Char)
  | [] => none
  | c :: cs =>
    if c = '-' then
      match cs with
      | [] => none
      | c2 :: cs2 =>
        if isDigitC c2 then
          let r := parseDigits 0 (c2 :: cs2)
          some (.num (-(r.1 : Int)), r.2)
        else none
    else if isDigitC c then
      let r := parseDigits 0 (c :: cs)
      some (.num (r.1 : Int), r.2)
    else none

/-- Decode one json string escape sequence (the part after the backslash):
the decoded character and the rest of the input.  Surrogate pairs are
combined; lone surrogates are rejected.  Non-recursive, so that it unfolds
definitionally in proofs. -/
def unescape1 : List Char → Option (Char × List Char)
  | [] => none
  | e :: cs =>
    if e = '"' then some ('"', cs)
    else if e = '\\' then some ('\\', cs)
    else if e = '/' then some ('/', cs)
    else if e = 'b' then some ('\x08', cs)
    else if e = 'f' then some ('\x0c', cs)
    else if e = 'n' then some ('\n', cs)
    else if e = 'r' then some ('\r', cs)
    else if e = 't' then some ('\t', cs)
    else if e = 'u' then
      match cs with
      | a :: b :: c :: d :: cs2 =>
        match hex4Val a b c d with
        | none => none
        | some n =>
          if 55296 ≤ n ∧ n < 56320 then
            match cs2 with
            | e2 :: u2 :: a2 :: b2 :: c2 :: d2 :: cs3 =>
              if e2 = '\\' ∧ u2 = 'u' then
                match hex4Val a2 b2 c2 d2 with
                | some m =>
                  if 56320 ≤ m ∧ m < 57344 then
                    some (Char.ofNat (65536 + (n - 55296) * 1024 + (m - 56320)), cs3)
                  else none
                | none => none
              else none
            | _ => none
          else if 56320 ≤ n ∧ n < 57344 then none
          else some (Char.ofNat n, cs2)
      | _ => none
    else none

/-- One step of json string-literal parsing: the closing quote ends the
string, a backslash decodes one escape, any other character is taken
verbatim.  `rec` is the recursive continuation. -/
def parseStringBodyF (rec : List Char → List Char → Option (String × List Char))
    (acc : List Char) : List Char → Option (String × List Char)
  | [] => none
  | c :: cs =>
    if c = '"' then some (String.mk acc.reverse, cs)
    else if c = '\\' then
      match unescape1 cs with
      | some dc => rec (dc.1 :: acc) dc.2
      | none => none
    else rec (c :: acc) cs

/-- Parse the rest of a json string literal after the opening quote.  The
fuel bounds the number of decoded characters; one unit is consumed per
decoded character. -/
def parseStringBody : Nat → List Char → List Char → Option (String × List Char)
  | 0, _, _ => none
  | fuel + 1, acc, s => parseStringBodyF (parseStringBody fuel) acc s

/-- One step of json value parsing.  `recV`, `recA`, `recO` are the
recursive continuations for a nested value, an array tail and an object
tail. -/
def parseValF (recV : List Char → Option (Json × List Char))
    (recA : List Char → Option (List Json × List Char))
    (recO : List Char → Option (List (String × Json) × List Char))
    (s : List Char) : Option (Json × List Char) :=
  match skipWs s with
  | [] => none
  | c :: cs =>
    if c = 'n' then
      match cs with
      | 'u' :: 'l' :: 'l' :: rest => some (.null, rest)
      | _ => none
    else if c = 't' then
      match cs with
      | 'r' :: 'u' :: 'e' :: rest => some (.bool true, rest)
      | _ => none
    else if c = 'f' then
      match cs with
      | 'a' :: 'l' :: 's' :: 'e' :: rest => some (.bool false, rest)
      | _ => none
    else if c = '"' then
      match parseStringBody (cs.length + 1) [] cs with
      | some (s2, rest) => some (.str s2, rest)
      | none => none
    else if c = '[' then
      match skipWs cs with
      | [] => none
      | c2 :: cs2 =>
        if c2 = ']' then some (.arr [], cs2)
        else
          match recV (c2 :: cs2) with
          | some (v, rest) =>
            match recA rest with
            | some (vs, rest2) => some (.arr (v :: vs), rest2)
            | none => none
          | none => none
    else if c = '\x7b' then
      match skipWs cs with
      | [] => none
      | c2 :: cs2 =>
        if c2 = '\x7d' then some (.obj [], cs2)
        else if c2 = '"' then
          match parseStringBody (cs2.length + 1) [] cs2 with
          | some (k, rest) =>
            match skipWs rest with
            | [] => none
            | c3 :: cs3 =>
              if c3 = ':' then
                match recV cs3 with
                | some (v, rest2) =>
                  match recO rest2 with
                  | some (kvs, rest3) => some (.obj ((k, v) :: kvs), rest3)
                  | none => none
                | none => none
              else none
          | none => none
        else none
    else parseNumber (c :: cs)

/-- One step of array-tail parsing: a comma followed by an element, or the
closing bracket. -/
def parseArrTailF (recV : List Char → Option (Json × List Char))
    (recA : List Char → Option (List Json × List Char))
    (s : List Char) : Option (List Json × List Char) :=
  match skipWs s with
  | [] => none
  | c :: cs =>
    if c = ']' then some ([], cs)
    else if c = ',' then
      match recV cs with
      | some (v, rest) =>
        match recA rest with
        | some (vs, rest2) => some (v :: vs, rest2)
        | none => none
      | none => none
    else none

/-- One step of object-tail parsing: a comma followed by a member, or the
closing brace. -/
def parseObjTailF (recV : List Char → Option (Json × List Char))
    (recO : List Char → Option (List (String × Json) × List Char))
    (s : List Char) : Option (List (String × Json) × List Char) :=
  match skipWs s with
  | [] => none
  | c :: cs =>
    if c = '\x7d' then some ([], cs)
    else if c = ',' then
      match skipWs cs with
      | [] => none
      | c2 :: cs2 =>
        if c2 = '"' then
          match parseStringBody (cs2.length + 1) [] cs2 with
          | some (k, rest) =>
            match skipWs rest with
            | [] => none
            | c3 :: cs3 =>
              if c3 = ':' then
                match recV cs3 with
                | some (v, rest2) =>
                  match recO rest2 with
                  | some (kvs, rest3) => some ((k, v) :: kvs, rest3)
                  | none => none
                | none => none
              else none
          | none => none
        else none
    else none

mutual

/-- Parse one json value.  The fuel bounds nesting depth only. -/
def parseVal : Nat → List Char → Option (Json × List Char)
  | 0, _ => none
  | fuel + 1, s => parseValF (parseVal fuel) (parseArrTail fuel) (parseObjTail fuel) s

/-- Parse the rest of an array after the first element. -/
def parseArrTail : Nat → List Char → Option (List Json × List Char)
  | 0, _ => none
  | fuel + 1, s => parseArrTailF (parseVal fuel) (parseArrTail fuel) s

/-- Parse the rest of an object after the first member. -/
def parseObjTail : Nat → List Char → Option (List (String × Json) × List Char)
  | 0, _ => none
  | fuel + 1, s => parseObjTailF (parseVal fuel) (parseObjTail fuel) s

end

/-- Parse a complete json text: one value, possibly surrounded by
whitespace, consuming the entire input. -/
def parseJsonWhole (s : String) : Option Json :=
  match parseVal (s.data.length + 1) s.data with
  | some (v, rest) => if skipWs rest = [] then some v else none
  | none => none

/-- Whether the input does not start with a decimal digit, so that a number
just parsed in front of it cannot absorb it. -/
def noLeadDigitB : List Char → Bool
  | [] => true
  | c :: _ => !isDigitC c

/-! ### Head characters of serialized values -/

/-- The characters a serialized json value can start with. -/
def headOk (c : Char) : Bool :=
  c == 'n' || c == 't' || c == 'f' || c == '"' || c == '[' || c == '\x7b' || c == '-'
    || isDigitC c

/-! ### Nesting depth of a json value -/

mutual

/-- Nesting depth of a value (a lower bound on parser fuel). -/
def jdepth : Json → Nat
  | .null => 1
  | .bool _ => 1
  | .num _ => 1
  | .str _ => 1
  | .arr l => 1 + adepth l
  | .obj l => 1 + odepth l

/-- Depth of an array tail. -/
def adepth : List Json → Nat
  | [] => 0
  | x :: xs => 1 + max (jdepth x) (adepth xs)

/-- Depth of an object tail. -/
def odepth : List (String × Json) → Nat
  | [] => 0
  | kv :: kvs => 1 + max (jdepth kv.2) (odepth kvs)

end

/-! ### Spec-side predicates and concrete scenario oracles -/

/-- The fixed category set of Comprehend sentiment labels. -/
def comprehend_labels : List String := ["POSITIVE", "NEGATIVE", "NEUTRAL", "MIXED"]

/-- Whether an article carries a sentiment label from the fixed category
set or the sentinel "ERROR". -/
def sentimentOkB (a : Json) : Bool :=
  match a.getItem "sentiment" with
  | .ok (Json.str l) => comprehend_labels.contains l || l == "ERROR"
  | _ => false

/-- A search result item that carries every key the per-result loop
subscripts: "fields" (a dict, for the trailText lookup), "webTitle",
"webUrl" and "webPublicationDate". -/
def wf_result (r : Json) : Bool :=
  (match r.getItem "fields" with
   | .ok f => (f.getD "trailText" (Json.str "No summary available")).isOk
   | .error _ => false)
  && (r.getItem "webTitle").isOk && (r.getItem "webUrl").isOk
  && (r.getItem "webPublicationDate").isOk

/-- A sentiment oracle whose successful responses look like Comprehend
responses: a "Sentiment" label from the fixed category set and a
"SentimentScore" mapping. -/
def detectValid (detect : DetectOracle) : Prop :=
  ∀ t j, detect t = .ok j →
    ∃ l sc, Json.getItem j "Sentiment" = .ok (Json.str l) ∧ l ∈ comprehend_labels
      ∧ Json.getItem j "SentimentScore" = .ok sc

/-- The per-day decomposition of the accumulated article list: each
offset contributes the day articles of its formatted date. -/
def accumOver (http : HttpOracle) (detect : DetectOracle)
    (api_key query page_size : Json) (today : Int) : List Nat → List Json
  | [] => []
  | i :: rest =>
    dayArticles http detect api_key query page_size (strftime_ymd (today - (i : Int)))
      ++ accumOver http detect api_key query page_size today rest

/-- A sentiment oracle that always answers NEUTRAL. -/
def detectGood : DetectOracle := fun _ =>
  .ok (Json.obj [("Sentiment", Json.str "NEUTRAL"), ("SentimentScore", Json.obj [])])

/-- A search oracle whose request always raises. -/
def httpExn : HttpOracle := fun _ _ => .exn "boom"

/-- A search oracle answering 200 with a payload that lacks the
"response" key. -/
def httpNoResponse : HttpOracle := fun _ _ =>
  .resp ⟨200, "OK", guardian_url, Json.obj []⟩

/-- A search oracle answering an ok-status payload whose single result
item lacks the "fields" key. -/
def httpMissingFields : HttpOracle := fun _ _ =>
  .resp ⟨200, "OK", guardian_url,
    Json.obj [("response", Json.obj [("status", Json.str "ok"),
      ("results", Json.arr [Json.obj []])])]⟩

/-- A well-formed search result item. -/
def itemW : Json :=
  Json.obj [("fields", Json.obj [("trailText", Json.str "sum")]),
    ("webTitle", Json.str "T"), ("webUrl", Json.str "U"),
    ("webPublicationDate", Json.str "2025-10-12T00:00:00Z")]

/-- A search oracle answering an ok-status payload with the one
well-formed result item. -/
def httpOneItem : HttpOracle := fun _ _ =>
  .resp ⟨200, "OK", guardian_url,
    Json.obj [("response", Json.obj [("status", Json.str "ok"),
      ("results", Json.arr [itemW])])]⟩

/-- A blob-store oracle whose upload succeeds. -/
def putOk : PutOracle := fun _ _ _ _ => .ok ()

/-- A blob-store oracle whose upload fails. -/
def putFail : PutOracle := fun _ _ _ _ => .error "denied"

/-- An invocation event with a non-empty api_key. -/
def eventK : List (String × Json) := [("api_key", Json.str "k")]

/-- An invocation event whose api_key is present but empty. -/
def eventEmptyKey : List (String × Json) := [("api_key", Json.str "")]

/-! ### Character-level lemmas -/

theorem string_mk_data : ∀ s : String, String.mk s.data = s
  | ⟨_⟩ => rfl

theorem char_toNat_inj : ∀ {c d : Char}, c.toNat = d.toNat → c = d := by
  intro c d h
  exact Char.ext (UInt32.toNat.inj h)

theorem char_ne_of_toNat_ne {c d : Char} (h : ¬ c.toNat = d.toNat) : ¬ c = d :=
  fun he => h (he ▸ rfl)

theorem char_le_iff {c d : Char} : c ≤ d ↔ c.toNat ≤ d.toNat := by
  rw [Char.le_def, UInt32.le_def, BitVec.le_def]
  exact Iff.rfl

theorem char_valid_ranges (c : Char) :
    c.toNat < 55296 ∨ (57343 < c.toNat ∧ c.toNat < 1114112) := by
  rcases c.valid with h | ⟨h1, h2⟩
  · exact Or.inl (UInt32.toNat_lt_of_lt (by decide) h)
  · exact Or.inr ⟨UInt32.lt_toNat_of_lt (by decide) h1, UInt32.toNat_lt_of_lt (by decide) h2⟩

theorem toNat_ofNat_valid {n : Nat} (h : n.isValidChar) : (Char.ofNat n).toNat = n := by
  rw [Char.ofNat, dif_pos h]
  rfl

theorem isValidChar_of_ranges {n : Nat} (h : n < 55296 ∨ (57343 < n ∧ n < 1114112)) :
    n.isValidChar := h

theorem toNat_ofNat_small {n : Nat} (h : n < 55296) : (Char.ofNat n).toNat = n :=
  toNat_ofNat_valid (isValidChar_of_ranges (Or.inl h))

theorem isDigitC_iff {c : Char} : isDigitC c = true ↔ 48 ≤ c.toNat ∧ c.toNat ≤ 57 := by
  simp only [isDigitC, Bool.decide_and, Bool.and_eq_true, decide_eq_true_eq]
  rw [char_le_iff, char_le_iff]
  exact Iff.rfl

theorem isWsC_iff {c : Char} :
    isWsC c = true ↔ c.toNat = 32 ∨ c.toNat = 9 ∨ c.toNat = 10 ∨ c.toNat = 13 := by
  simp only [isWsC, Bool.decide_or, Bool.or_eq_true, decide_eq_true_eq]
  constructor
  · rintro (rfl | rfl | rfl | rfl) <;> simp
  · rintro (h | h | h | h) <;>
      [exact Or.inl (char_toNat_inj h);
       exact Or.inr (Or.inl (char_toNat_inj h));
       exact Or.inr (Or.inr (Or.inl (char_toNat_inj h)));
       exact Or.inr (Or.inr (Or.inr (char_toNat_inj h)))]

theorem isWsC_false_of_toNat {c : Char}
    (h : ¬ (c.toNat = 32 ∨ c.toNat = 9 ∨ c.toNat = 10 ∨ c.toNat = 13)) : isWsC c = false := by
  rcases hw : isWsC c with _ | _
  · rfl
  · exact absurd (isWsC_iff.mp hw) h

/-! ### Digit printing and parsing lemmas -/

theorem digitChar_toNat {d : Nat} (h : d < 10) : (digitChar d).toNat = 48 + d :=
  toNat_ofNat_small (by omega)

theorem isDigitC_digitChar {d : Nat} (h : d < 10) : isDigitC (digitChar d) = true :=
  isDigitC_iff.mpr (by rw [digitChar_toNat h]; omega)

theorem hexChar_toNat {d : Nat} (h : d < 16) :
    (hexChar d).toNat = if d < 10 then 48 + d else 87 + d := by
  unfold hexChar
  split
  · exact toNat_ofNat_small (by omega)
  · exact toNat_ofNat_small (by omega)

theorem hexVal_hexChar {d : Nat} (h : d < 16) : hexVal (hexChar d) = some d := by
  interval_cases d <;> decide

theorem hex4Val_hex4 {n : Nat} (h : n < 65536) :
    hex4Val (hexChar (n / 4096 % 16)) (hexChar (n / 256 % 16)) (hexChar (n / 16 % 16))
      (hexChar (n % 16)) = some n := by
  unfold hex4Val
  rw [hexVal_hexChar (Nat.mod_lt _ (by omega)), hexVal_hexChar (Nat.mod_lt _ (by omega)),
    hexVal_hexChar (Nat.mod_lt _ (by omega)), hexVal_hexChar (Nat.mod_lt _ (by omega))]
  exact congrArg some (by omega)


theorem parseDigits_stop {acc : Nat} {rest : List Char} (h : noLeadDigitB rest = true) :
    parseDigits acc rest = (acc, rest) := by
  cases rest with
  | nil => rfl
  | cons c cs =>
    simp only [noLeadDigitB, Bool.not_eq_true'] at h
    simp [parseDigits, h]

theorem parseDigits_natCharsAux :
    ∀ fuel n, n < fuel →
      ∃ len, ∀ acc rest,
        parseDigits acc (natCharsAux fuel n ++ rest) = parseDigits (acc * 10 ^ len + n) rest := by
  intro fuel
  induction fuel with
  | zero => omega
  | succ f ih =>
    intro n hn
    by_cases h10 : n < 10
    · refine ⟨1, fun acc rest => ?_⟩
      simp only [natCharsAux, if_pos h10, List.cons_append, List.nil_append]
      simp only [parseDigits, isDigitC_digitChar h10, digitChar_toNat h10, if_true]
      have : acc * 10 + (48 + n - 48) = acc * 10 ^ 1 + n := by omega
      rw [this]
    · have hdiv : n / 10 < f := by omega
      obtain ⟨len, hlen⟩ := ih (n / 10) hdiv
      refine ⟨len + 1, fun acc rest => ?_⟩
      simp only [natCharsAux, if_neg h10, List.append_assoc, List.cons_append, List.nil_append]
      rw [hlen]
      have hm : n % 10 < 10 := Nat.mod_lt _ (by omega)
      simp only [parseDigits, isDigitC_digitChar hm, digitChar_toNat hm, if_true]
      have : (acc * 10 ^ len + n / 10) * 10 + (48 + n % 10 - 48)
          = acc * 10 ^ (len + 1) + n := by
        rw [Nat.pow_succ, ← Nat.mul_assoc]
        omega
      rw [this]

theorem parseDigits_natChars {n : Nat} {rest : List Char} (h : noLeadDigitB rest = true) :
    parseDigits 0 (natChars n ++ rest) = (n, rest) := by
  obtain ⟨len, hlen⟩ := parseDigits_natCharsAux (n + 1) n (Nat.lt_succ_self n)
  rw [natChars, hlen, Nat.zero_mul, Nat.zero_add, parseDigits_stop h]

theorem natCharsAux_head :
    ∀ fuel n, n < fuel → ∃ c cs, natCharsAux fuel n = c :: cs ∧ isDigitC c = true := by
  intro fuel
  induction fuel with
  | zero => omega
  | succ f ih =>
    intro n hn
    by_cases h10 : n < 10
    · exact ⟨digitChar n, [], by simp [natCharsAux, if_pos h10], isDigitC_digitChar h10⟩
    · obtain ⟨c, cs, hc, hd⟩ := ih (n / 10) (by omega)
      exact ⟨c, cs ++ [digitChar (n % 10)],
        by simp only [natCharsAux, if_neg h10, hc, List.cons_append], hd⟩

theorem natChars_head (n : Nat) : ∃ c cs, natChars n = c :: cs ∧ isDigitC c = true :=
  natCharsAux_head (n + 1) n (Nat.lt_succ_self n)

theorem parseNumber_intChars (i : Int) {rest : List Char} (h : noLeadDigitB rest = true) :
    parseNumber (intChars i ++ rest) = some (Json.num i, rest) := by
  by_cases hneg : i < 0
  · simp only [intChars, if_pos hneg, List.cons_append]
    obtain ⟨c, cs, hc, hd⟩ := natChars_head i.natAbs
    rw [hc, List.cons_append]
    simp only [parseNumber, if_true]
    rw [if_pos hd, ← List.cons_append, ← hc, parseDigits_natChars h]
    have : -(i.natAbs : Int) = i := by omega
    rw [this]
  · simp only [intChars, if_neg hneg]
    obtain ⟨c, cs, hc, hd⟩ := natChars_head i.toNat
    rw [hc, List.cons_append]
    have hcm : ¬ c = '-' := by
      have := isDigitC_iff.mp hd
      have h45 : ('-').toNat = 45 := rfl
      exact char_ne_of_toNat_ne (by omega)
    simp only [parseNumber, if_neg hcm]
    rw [if_pos hd, ← List.cons_append, ← hc, parseDigits_natChars h]
    have : (i.toNat : Int) = i := by omega
    rw [this]

/-! ### String escaping roundtrip lemmas -/

theorem unescape1_u (a b c d : Char) (X : List Char) :
    unescape1 ('u' :: (a :: b :: c :: d :: X)) =
      (match hex4Val a b c d with
       | none => none
       | some n =>
         if 55296 ≤ n ∧ n < 56320 then
           match X with
           | e2 :: u2 :: a2 :: b2 :: c2 :: d2 :: cs3 =>
             if e2 = '\\' ∧ u2 = 'u' then
               match hex4Val a2 b2 c2 d2 with
               | some m =>
                 if 56320 ≤ m ∧ m < 57344 then
                   some (Char.ofNat (65536 + (n - 55296) * 1024 + (m - 56320)), cs3)
                 else none
               | none => none
             else none
           | _ => none
         else if 56320 ≤ n ∧ n < 57344 then none
         else some (Char.ofNat n, X)) := rfl

theorem unescape1_uescape {n : Nat} (h16 : n < 65536) (hlo : n < 55296 ∨ 57343 < n)
    (X : List Char) : unescape1 ('u' :: (hex4 n ++ X)) = some (Char.ofNat n, X) := by
  have h4 := hex4Val_hex4 h16
  rw [show (hex4 n ++ X : List Char)
        = hexChar (n / 4096 % 16) :: hexChar (n / 256 % 16) :: hexChar (n / 16 % 16)
            :: hexChar (n % 16) :: X from rfl]
  simp only [unescape1_u, h4]
  rw [if_neg (by omega : ¬ (55296 ≤ n ∧ n < 56320)),
    if_neg (by omega : ¬ (56320 ≤ n ∧ n < 57344))]

theorem unescape1_u_pair {a b c d a2 b2 c2 d2 : Char} {X : List Char} {n m : Nat}
    (hn : hex4Val a b c d = some n) (hm : hex4Val a2 b2 c2 d2 = some m)
    (hnr : 55296 ≤ n ∧ n < 56320) (hmr : 56320 ≤ m ∧ m < 57344) :
    unescape1 ('u' :: (a :: b :: c :: d :: ('\\' :: 'u' :: (a2 :: b2 :: c2 :: d2 :: X))))
      = some (Char.ofNat (65536 + (n - 55296) * 1024 + (m - 56320)), X) := by
  simp only [unescape1_u, hn]
  rw [if_pos hnr]
  rw [if_pos (⟨trivial, trivial⟩ : True ∧ True)]
  simp only [hm]
  rw [if_pos hmr]

theorem unescape1_surrogate {n : Nat} (h1 : 65536 ≤ n) (h2 : n < 1114112) (X : List Char) :
    unescape1 ('u' :: (hex4 (55296 + (n - 65536) / 1024)
        ++ ('\\' :: 'u' :: (hex4 (56320 + (n - 65536) % 1024) ++ X))))
      = some (Char.ofNat n, X) := by
  have hmod := Nat.mod_lt (n - 65536) (show 0 < 1024 by omega)
  have hhi : 55296 + (n - 65536) / 1024 < 65536 := by omega
  have hlo : 56320 + (n - 65536) % 1024 < 65536 := by omega
  rw [show (hex4 (55296 + (n - 65536) / 1024)
        ++ ('\\' :: 'u' :: (hex4 (56320 + (n - 65536) % 1024) ++ X)) : List Char)
      = hexChar ((55296 + (n - 65536) / 1024) / 4096 % 16)
        :: hexChar ((55296 + (n - 65536) / 1024) / 256 % 16)
        :: hexChar ((55296 + (n - 65536) / 1024) / 16 % 16)
        :: hexChar ((55296 + (n - 65536) / 1024) % 16)
        :: ('\\' :: 'u' :: (hexChar ((56320 + (n - 65536) % 1024) / 4096 % 16)
            :: hexChar ((56320 + (n - 65536) % 1024) / 256 % 16)
            :: hexChar ((56320 + (n - 65536) % 1024) / 16 % 16)
            :: hexChar ((56320 + (n - 65536) % 1024) % 16) :: X)) from rfl]
  have hlem := unescape1_u_pair (X := X) (hex4Val_hex4 hhi) (hex4Val_hex4 hlo)
    (by omega) (by constructor <;> omega)
  rw [hlem]
  have harg : 65536 + (55296 + (n - 65536) / 1024 - 55296) * 1024
      + (56320 + (n - 65536) % 1024 - 56320) = n := by
    have := Nat.div_add_mod (n - 65536) 1024
    omega
  rw [harg]

theorem parseStringBodyF_backslash
    (rec : List Char → List Char → Option (String × List Char)) (acc cs : List Char) :
    parseStringBodyF rec acc ('\\' :: cs)
      = (match unescape1 cs with
         | some dc => rec (dc.1 :: acc) dc.2
         | none => none) := rfl

theorem parseStringBodyF_other
    (rec : List Char → List Char → Option (String × List Char)) (acc : List Char)
    {c : Char} (cs : List Char) (hq : ¬ c = '"') (hb : ¬ c = '\\') :
    parseStringBodyF rec acc (c :: cs) = rec (c :: acc) cs := by
  simp only [parseStringBodyF, if_neg hq, if_neg hb]

theorem parseStringBodyF_escChar
    (rec : List Char → List Char → Option (String × List Char)) (c : Char) (acc X : List Char) :
    parseStringBodyF rec acc (escChar c ++ X) = rec (c :: acc) X := by
  by_cases h1 : c = '\\'
  · subst h1; exact rfl
  by_cases h2 : c = '"'
  · subst h2; exact rfl
  by_cases h3 : c = '\x08'
  · subst h3; exact rfl
  by_cases h4 : c = '\x0c'
  · subst h4; exact rfl
  by_cases h5 : c = '\n'
  · subst h5; exact rfl
  by_cases h6 : c = '\r'
  · subst h6; exact rfl
  by_cases h7 : c = '\t'
  · subst h7; exact rfl
  by_cases hascii : 32 ≤ c.toNat ∧ c.toNat ≤ 126
  · rw [show escChar c = [c] by
      simp only [escChar, if_neg h1, if_neg h2, if_neg h3, if_neg h4, if_neg h5, if_neg h6,
        if_neg h7, if_pos hascii]]
    simp only [List.cons_append, List.nil_append]
    exact parseStringBodyF_other rec acc X h2 h1
  by_cases hbmp : c.toNat < 65536
  · rw [show escChar c ++ X = '\\' :: ('u' :: (hex4 c.toNat ++ X)) by
      simp only [escChar, if_neg h1, if_neg h2, if_neg h3, if_neg h4, if_neg h5, if_neg h6,
        if_neg h7, if_neg hascii, if_pos hbmp, List.cons_append]]
    rw [parseStringBodyF_backslash]
    have hr := char_valid_ranges c
    simp only [unescape1_uescape hbmp (by omega : c.toNat < 55296 ∨ 57343 < c.toNat)]
    rw [Char.ofNat_toNat]
  · rw [show escChar c ++ X = '\\' :: ('u' :: (hex4 (55296 + (c.toNat - 65536) / 1024)
        ++ ('\\' :: 'u' :: (hex4 (56320 + (c.toNat - 65536) % 1024) ++ X)))) by
      simp only [escChar, if_neg h1, if_neg h2, if_neg h3, if_neg h4, if_neg h5, if_neg h6,
        if_neg h7, if_neg hascii, if_neg hbmp, List.cons_append, List.append_assoc]]
    rw [parseStringBodyF_backslash]
    have hr := char_valid_ranges c
    simp only [unescape1_surrogate (by omega : 65536 ≤ c.toNat) (by omega : c.toNat < 1114112)]
    rw [Char.ofNat_toNat]

theorem parseStringBody_escList :
    ∀ (cs : List Char) (fuel : Nat), cs.length < fuel → ∀ (acc rest : List Char),
      parseStringBody fuel acc (escList cs ++ '"' :: rest)
        = some (String.mk (acc.reverse ++ cs), rest)
  | [], fuel, hf, acc, rest => by
      obtain ⟨f, rfl⟩ : ∃ f, fuel = f + 1 := ⟨fuel - 1, by omega⟩
      show parseStringBody (f + 1) acc ('"' :: rest) = _
      simp only [parseStringBody]
      rw [show parseStringBodyF (parseStringBody f) acc ('"' :: rest)
          = some (String.mk acc.reverse, rest) from rfl]
      rw [List.append_nil]
  | c :: cs, fuel, hf, acc, rest => by
      obtain ⟨f, rfl⟩ : ∃ f, fuel = f + 1 := ⟨fuel - 1, by omega⟩
      rw [show escList (c :: cs) ++ '"' :: rest = escChar c ++ (escList cs ++ '"' :: rest) by
        simp [escList, List.append_assoc]]
      simp only [parseStringBody]
      rw [parseStringBodyF_escChar]
      rw [parseStringBody_escList cs f (by
        have := hf
        simp only [List.length_cons] at this
        omega) (c :: acc) rest]
      simp [List.reverse_cons, List.append_assoc]

theorem parseStringBody_strLit (s : String) {fuel : Nat} (hf : s.data.length < fuel)
    (rest : List Char) :
    parseStringBody fuel [] (escList s.data ++ '"' :: rest) = some (s, rest) := by
  rw [parseStringBody_escList s.data fuel hf [] rest]
  rw [show (([] : List Char).reverse ++ s.data : List Char) = s.data from rfl, string_mk_data]

theorem escChar_length_pos (c : Char) : 1 ≤ (escChar c).length := by
  unfold escChar
  repeat' split
  all_goals simp [hex4]

theorem escList_length_ge : ∀ cs : List Char, cs.length ≤ (escList cs).length
  | [] => Nat.le_refl 0
  | c :: cs => by
      simp only [escList, List.length_append, List.length_cons]
      have h1 := escChar_length_pos c
      have h2 := escList_length_ge cs
      omega


theorem headOk_props {c : Char} (h : headOk c = true) :
    isWsC c = false ∧ ¬ c = ']' ∧ ¬ c = ',' ∧ ¬ c = '\x7d' ∧ ¬ c = ':' := by
  simp only [headOk, Bool.or_eq_true, beq_iff_eq] at h
  rcases h with ((((((rfl | rfl) | rfl) | rfl) | rfl) | rfl) | rfl) | hd
  · decide
  · decide
  · decide
  · decide
  · decide
  · decide
  · decide
  · have hb := isDigitC_iff.mp hd
    have e1 : (']').toNat = 93 := rfl
    have e2 : (',').toNat = 44 := rfl
    have e3 : ('\x7d').toNat = 125 := rfl
    have e4 : (':').toNat = 58 := rfl
    exact ⟨isWsC_false_of_toNat (by omega), char_ne_of_toNat_ne (by omega),
      char_ne_of_toNat_ne (by omega), char_ne_of_toNat_ne (by omega),
      char_ne_of_toNat_ne (by omega)⟩

theorem numHead_props {c : Char} (h : c = '-' ∨ isDigitC c = true) :
    isWsC c = false ∧ ¬ c = 'n' ∧ ¬ c = 't' ∧ ¬ c = 'f' ∧ ¬ c = '"' ∧ ¬ c = '['
      ∧ ¬ c = '\x7b' := by
  rcases h with rfl | hd
  · decide
  · have hb := isDigitC_iff.mp hd
    have e1 : ('n').toNat = 110 := rfl
    have e2 : ('t').toNat = 116 := rfl
    have e3 : ('f').toNat = 102 := rfl
    have e4 : ('"').toNat = 34 := rfl
    have e5 : ('[').toNat = 91 := rfl
    have e6 : ('\x7b').toNat = 123 := rfl
    exact ⟨isWsC_false_of_toNat (by omega), char_ne_of_toNat_ne (by omega),
      char_ne_of_toNat_ne (by omega), char_ne_of_toNat_ne (by omega),
      char_ne_of_toNat_ne (by omega), char_ne_of_toNat_ne (by omega),
      char_ne_of_toNat_ne (by omega)⟩

theorem intChars_head_num (i : Int) :
    ∃ c cs, intChars i = c :: cs ∧ (c = '-' ∨ isDigitC c = true) := by
  unfold intChars
  split
  · exact ⟨'-', natChars i.natAbs, rfl, Or.inl rfl⟩
  · obtain ⟨c, cs, hc, hd⟩ := natChars_head i.toNat
    exact ⟨c, cs, hc, Or.inr hd⟩

theorem numHead_headOk {c : Char} (h : c = '-' ∨ isDigitC c = true) : headOk c = true := by
  simp only [headOk, Bool.or_eq_true, beq_iff_eq]
  rcases h with rfl | hd
  · exact Or.inl (Or.inr rfl)
  · exact Or.inr hd

theorem dumpsL_head (j : Json) : ∃ c cs, dumpsL j = c :: cs ∧ headOk c = true := by
  cases j with
  | null => exact ⟨'n', ['u', 'l', 'l'], by simp only [dumpsL], by decide⟩
  | bool b =>
    cases b with
    | false => exact ⟨'f', ['a', 'l', 's', 'e'], by simp only [dumpsL], by decide⟩
    | true => exact ⟨'t', ['r', 'u', 'e'], by simp only [dumpsL], by decide⟩
  | num i =>
    obtain ⟨c, cs, hc, hd⟩ := intChars_head_num i
    exact ⟨c, cs, by simp only [dumpsL, hc], numHead_headOk hd⟩
  | str s =>
    exact ⟨'"', escList s.data ++ ['"'], by simp only [dumpsL, strLit, List.cons_append],
      by decide⟩
  | arr l =>
    cases l with
    | nil => exact ⟨'[', [']'], by simp only [dumpsL], by decide⟩
    | cons x xs =>
      exact ⟨'[', (dumpsL x ++ dumpsArr xs) ++ [']'],
        by simp only [dumpsL, List.cons_append], by decide⟩
  | obj l =>
    cases l with
    | nil => exact ⟨'\x7b', ['\x7d'], by simp only [dumpsL], by decide⟩
    | cons kv kvs =>
      exact ⟨'\x7b', (strLit kv.1 ++ ':' :: ' ' :: dumpsL kv.2 ++ dumpsObj kvs) ++ ['\x7d'],
        by cases kv; simp only [dumpsL, List.cons_append], by decide⟩

/-! ### Whitespace lemmas -/

theorem skipWs_cons_false {c : Char} {cs : List Char} (h : isWsC c = false) :
    skipWs (c :: cs) = c :: cs := by
  simp [skipWs, h]

theorem skipWs_space (cs : List Char) : skipWs (' ' :: cs) = skipWs cs := by
  simp only [skipWs]
  rw [if_pos (show isWsC ' ' = true from by decide)]

theorem parseValF_ws (recV recA recO) (s : List Char) :
    parseValF recV recA recO (' ' :: s) = parseValF recV recA recO s := by
  simp only [parseValF, skipWs_space]

theorem parseVal_ws (fuel : Nat) (s : List Char) :
    parseVal fuel (' ' :: s) = parseVal fuel s := by
  cases fuel with
  | zero => rfl
  | succ f => simp only [parseVal, parseValF_ws]

/-! ### Leading-digit helpers -/

theorem noLead_dumpsArr (l : List Json) (rest : List Char) :
    noLeadDigitB (dumpsArr l ++ ']' :: rest) = true := by
  cases l with
  | nil => simp only [dumpsArr, List.nil_append]; rfl
  | cons x xs => simp only [dumpsArr, List.cons_append]; rfl

theorem noLead_dumpsObj (kvs : List (String × Json)) (rest : List Char) :
    noLeadDigitB (dumpsObj kvs ++ '\x7d' :: rest) = true := by
  cases kvs with
  | nil => simp only [dumpsObj, List.nil_append]; rfl
  | cons kv kvs =>
    cases kv
    simp only [dumpsObj, List.cons_append]
    rfl


theorem jdepth_pos (j : Json) : 1 ≤ jdepth j := by
  cases j <;> simp [jdepth]

mutual

theorem rt_val : ∀ (j : Json) (fuel : Nat), jdepth j ≤ fuel → ∀ (rest : List Char),
    noLeadDigitB rest = true → parseVal fuel (dumpsL j ++ rest) = some (j, rest)
  | .null, fuel, hf, rest, _ => by
      obtain ⟨f, rfl⟩ : ∃ f, fuel = f + 1 := ⟨fuel - 1, by have := jdepth_pos Json.null; omega⟩
      simp only [dumpsL, List.cons_append, List.nil_append, parseVal]
      exact rfl
  | .bool true, fuel, hf, rest, _ => by
      obtain ⟨f, rfl⟩ : ∃ f, fuel = f + 1 := ⟨fuel - 1, by have := jdepth_pos (Json.bool true); omega⟩
      simp only [dumpsL, List.cons_append, List.nil_append, parseVal]
      exact rfl
  | .bool false, fuel, hf, rest, _ => by
      obtain ⟨f, rfl⟩ : ∃ f, fuel = f + 1 := ⟨fuel - 1, by have := jdepth_pos (Json.bool false); omega⟩
      simp only [dumpsL, List.cons_append, List.nil_append, parseVal]
      exact rfl
  | .num i, fuel, hf, rest, hr => by
      obtain ⟨f, rfl⟩ : ∃ f, fuel = f + 1 := ⟨fuel - 1, by have := jdepth_pos (Json.num i); omega⟩
      simp only [dumpsL, parseVal]
      obtain ⟨c, cs, hc, hd⟩ := intChars_head_num i
      obtain ⟨hws, hn, ht, hf2, hq, hbr, hbc⟩ := numHead_props hd
      rw [hc, List.cons_append]
      simp only [parseValF]
      rw [skipWs_cons_false hws]
      dsimp only
      rw [if_neg hn, if_neg ht, if_neg hf2, if_neg hq, if_neg hbr, if_neg hbc]
      rw [← List.cons_append, ← hc]
      exact parseNumber_intChars i hr
  | .str s, fuel, hf, rest, _ => by
      obtain ⟨f, rfl⟩ : ∃ f, fuel = f + 1 := ⟨fuel - 1, by have := jdepth_pos (Json.str s); omega⟩
      rw [show dumpsL (Json.str s) ++ rest = '"' :: (escList s.data ++ '"' :: rest) by
        simp [dumpsL, strLit, List.append_assoc]]
      simp only [parseVal, parseValF]
      rw [skipWs_cons_false (by decide)]
      dsimp only
      rw [if_neg (show ¬ ('"' : Char) = 'n' by decide), if_neg (show ¬ ('"' : Char) = 't' by decide),
        if_neg (show ¬ ('"' : Char) = 'f' by decide), if_pos (rfl : ('"' : Char) = '"')]
      have hlen : s.data.length < (escList s.data ++ '"' :: rest).length + 1 := by
        have := escList_length_ge s.data
        simp only [List.length_append, List.length_cons]
        omega
      rw [parseStringBody_strLit s hlen rest]
  | .arr [], fuel, hf, rest, _ => by
      obtain ⟨f, rfl⟩ : ∃ f, fuel = f + 1 := ⟨fuel - 1, by have := jdepth_pos (Json.arr []); omega⟩
      simp only [dumpsL, List.cons_append, List.nil_append, parseVal]
      exact rfl
  | .arr (x :: xs), fuel, hf, rest, _ => by
      obtain ⟨f, rfl⟩ : ∃ f, fuel = f + 1 :=
        ⟨fuel - 1, by have := jdepth_pos (Json.arr (x :: xs)); omega⟩
      have hda : jdepth (Json.arr (x :: xs)) = 2 + max (jdepth x) (adepth xs) := by
        simp [jdepth, adepth]
        omega
      have hdx : jdepth x ≤ f := by rw [hda] at hf; omega
      have hax : adepth xs < f := by rw [hda] at hf; omega
      rw [show dumpsL (Json.arr (x :: xs)) ++ rest
          = '[' :: (dumpsL x ++ (dumpsArr xs ++ ']' :: rest)) by
        simp [dumpsL, List.append_assoc]]
      simp only [parseVal, parseValF]
      rw [skipWs_cons_false (by decide)]
      dsimp only
      rw [if_neg (show ¬ ('[' : Char) = 'n' by decide), if_neg (show ¬ ('[' : Char) = 't' by decide),
        if_neg (show ¬ ('[' : Char) = 'f' by decide), if_neg (show ¬ ('[' : Char) = '"' by decide),
        if_pos (rfl : ('[' : Char) = '[')]
      obtain ⟨c, cs, hc, hd⟩ := dumpsL_head x
      obtain ⟨hws, hrb, hcm, hbrc, hcl⟩ := headOk_props hd
      rw [hc, List.cons_append, skipWs_cons_false hws]
      dsimp only
      rw [if_neg hrb]
      rw [← List.cons_append, ← hc]
      rw [rt_val x f hdx (dumpsArr xs ++ ']' :: rest) (noLead_dumpsArr xs rest)]
      dsimp only
      rw [rt_arr xs f hax rest]
  | .obj [], fuel, hf, rest, _ => by
      obtain ⟨f, rfl⟩ : ∃ f, fuel = f + 1 := ⟨fuel - 1, by have := jdepth_pos (Json.obj []); omega⟩
      simp only [dumpsL, List.cons_append, List.nil_append, parseVal]
      exact rfl
  | .obj ((k, v) :: kvs), fuel, hf, rest, _ => by
      obtain ⟨f, rfl⟩ : ∃ f, fuel = f + 1 :=
        ⟨fuel - 1, by have := jdepth_pos (Json.obj ((k, v) :: kvs)); omega⟩
      have hdo : jdepth (Json.obj ((k, v) :: kvs)) = 2 + max (jdepth v) (odepth kvs) := by
        simp [jdepth, odepth]
        omega
      have hdv : jdepth v ≤ f := by rw [hdo] at hf; omega
      have hov : odepth kvs < f := by rw [hdo] at hf; omega
      rw [show dumpsL (Json.obj ((k, v) :: kvs)) ++ rest
          = '\x7b' :: ('"' :: (escList k.data
              ++ '"' :: (':' :: (' ' :: (dumpsL v ++ (dumpsObj kvs ++ '\x7d' :: rest)))))) by
        simp [dumpsL, strLit, List.append_assoc]]
      simp only [parseVal, parseValF]
      rw [skipWs_cons_false (by decide)]
      dsimp only
      rw [if_neg (show ¬ ('\x7b' : Char) = 'n' by decide),
        if_neg (show ¬ ('\x7b' : Char) = 't' by decide),
        if_neg (show ¬ ('\x7b' : Char) = 'f' by decide),
        if_neg (show ¬ ('\x7b' : Char) = '"' by decide),
        if_neg (show ¬ ('\x7b' : Char) = '[' by decide),
        if_pos (rfl : ('\x7b' : Char) = '\x7b')]
      rw [skipWs_cons_false (by decide)]
      dsimp only
      rw [if_neg (show ¬ ('"' : Char) = '\x7d' by decide), if_pos (rfl : ('"' : Char) = '"')]
      have hlen : k.data.length
          < (escList k.data
              ++ '"' :: (':' :: (' ' :: (dumpsL v ++ (dumpsObj kvs ++ '\x7d' :: rest))))).length
            + 1 := by
        have := escList_length_ge k.data
        simp only [List.length_append, List.length_cons]
        omega
      rw [parseStringBody_strLit k hlen _]
      dsimp only
      rw [skipWs_cons_false (by decide)]
      dsimp only
      rw [if_pos (rfl : (':' : Char) = ':')]
      rw [parseVal_ws]
      rw [rt_val v f hdv (dumpsObj kvs ++ '\x7d' :: rest) (noLead_dumpsObj kvs rest)]
      dsimp only
      rw [rt_obj kvs f hov rest]

theorem rt_arr : ∀ (l : List Json) (fuel : Nat), adepth l < fuel → ∀ (rest : List Char),
    parseArrTail fuel (dumpsArr l ++ ']' :: rest) = some (l, rest)
  | [], fuel, hf, rest => by
      obtain ⟨f, rfl⟩ : ∃ f, fuel = f + 1 := ⟨fuel - 1, by omega⟩
      simp only [dumpsArr, List.nil_append, parseArrTail]
      exact rfl
  | y :: ys, fuel, hf, rest => by
      obtain ⟨f, rfl⟩ : ∃ f, fuel = f + 1 := ⟨fuel - 1, by omega⟩
      have hya : adepth (y :: ys) = 1 + max (jdepth y) (adepth ys) := by simp [adepth]
      have hdy : jdepth y ≤ f := by rw [hya] at hf; omega
      have hay : adepth ys < f := by rw [hya] at hf; omega
      rw [show dumpsArr (y :: ys) ++ ']' :: rest
          = ',' :: (' ' :: (dumpsL y ++ (dumpsArr ys ++ ']' :: rest))) by
        simp [dumpsArr, List.append_assoc]]
      simp only [parseArrTail, parseArrTailF]
      rw [skipWs_cons_false (by decide)]
      dsimp only
      rw [if_neg (show ¬ (',' : Char) = ']' by decide), if_pos (rfl : (',' : Char) = ',')]
      rw [parseVal_ws]
      rw [rt_val y f hdy (dumpsArr ys ++ ']' :: rest) (noLead_dumpsArr ys rest)]
      dsimp only
      rw [rt_arr ys f hay rest]

theorem rt_obj : ∀ (kvs : List (String × Json)) (fuel : Nat), odepth kvs < fuel →
    ∀ (rest : List Char),
    parseObjTail fuel (dumpsObj kvs ++ '\x7d' :: rest) = some (kvs, rest)
  | [], fuel, hf, rest => by
      obtain ⟨f, rfl⟩ : ∃ f, fuel = f + 1 := ⟨fuel - 1, by omega⟩
      simp only [dumpsObj, List.nil_append, parseObjTail]
      exact rfl
  | (k, v) :: kvs, fuel, hf, rest => by
      obtain ⟨f, rfl⟩ : ∃ f, fuel = f + 1 := ⟨fuel - 1, by omega⟩
      have hko : odepth ((k, v) :: kvs) = 1 + max (jdepth v) (odepth kvs) := by simp [odepth]
      have hdv : jdepth v ≤ f := by rw [hko] at hf; omega
      have hov : odepth kvs < f := by rw [hko] at hf; omega
      rw [show dumpsObj ((k, v) :: kvs) ++ '\x7d' :: rest
          = ',' :: (' ' :: ('"' :: (escList k.data
              ++ '"' :: (':' :: (' ' :: (dumpsL v ++ (dumpsObj kvs ++ '\x7d' :: rest))))))) by
        simp [dumpsObj, strLit, List.append_assoc]]
      simp only [parseObjTail, parseObjTailF]
      rw [skipWs_cons_false (by decide)]
      dsimp only
      rw [if_neg (show ¬ (',' : Char) = '\x7d' by decide), if_pos (rfl : (',' : Char) = ',')]
      rw [show skipWs (' ' :: ('"' :: (escList k.data
          ++ '"' :: (':' :: (' ' :: (dumpsL v ++ (dumpsObj kvs ++ '\x7d' :: rest)))))))
          = '"' :: (escList k.data
              ++ '"' :: (':' :: (' ' :: (dumpsL v ++ (dumpsObj kvs ++ '\x7d' :: rest))))) by
        rw [skipWs_space, skipWs_cons_false (by decide)]]
      dsimp only
      rw [if_pos (rfl : ('"' : Char) = '"')]
      have hlen : k.data.length
          < (escList k.data
              ++ '"' :: (':' :: (' ' :: (dumpsL v ++ (dumpsObj kvs ++ '\x7d' :: rest))))).length
            + 1 := by
        have := escList_length_ge k.data
        simp only [List.length_append, List.length_cons]
        omega
      rw [parseStringBody_strLit k hlen _]
      dsimp only
      rw [skipWs_cons_false (by decide)]
      dsimp only
      rw [if_pos (rfl : (':' : Char) = ':')]
      rw [parseVal_ws]
      rw [rt_val v f hdv (dumpsObj kvs ++ '\x7d' :: rest) (noLead_dumpsObj kvs rest)]
      dsimp only
      rw [rt_obj kvs f hov rest]

end

mutual

theorem jdepth_le_len : ∀ j : Json, jdepth j ≤ (dumpsL j).length
  | .null => by simp [jdepth, dumpsL]
  | .bool true => by simp [jdepth, dumpsL]
  | .bool false => by simp [jdepth, dumpsL]
  | .num i => by
      simp only [jdepth, dumpsL]
      obtain ⟨c, cs, hc, _⟩ := intChars_head_num i
      rw [hc]
      simp
  | .str s => by simp [jdepth, dumpsL, strLit]
  | .arr [] => by simp [jdepth, adepth, dumpsL]
  | .arr (x :: xs) => by
      have h1 := jdepth_le_len x
      have h2 := adepth_le_len xs
      simp only [jdepth, adepth, dumpsL, List.cons_append, List.length_append, List.length_cons]
      omega
  | .obj [] => by simp [jdepth, odepth, dumpsL]
  | .obj ((k, v) :: kvs) => by
      have h1 := jdepth_le_len v
      have h2 := odepth_le_len kvs
      simp only [jdepth, odepth, dumpsL, strLit, List.cons_append, List.length_append,
        List.length_cons]
      omega

theorem adepth_le_len : ∀ l : List Json, adepth l ≤ (dumpsArr l).length
  | [] => by simp [adepth, dumpsArr]
  | y :: ys => by
      have h1 := jdepth_le_len y
      have h2 := adepth_le_len ys
      simp only [adepth, dumpsArr, List.cons_append, List.length_append, List.length_cons]
      omega

theorem odepth_le_len : ∀ kvs : List (String × Json), odepth kvs ≤ (dumpsObj kvs).length
  | [] => by simp [odepth, dumpsObj]
  | (k, v) :: kvs => by
      have h1 := jdepth_le_len v
      have h2 := odepth_le_len kvs
      simp only [odepth, dumpsObj, strLit, List.cons_append, List.length_append, List.length_cons]
      omega

end

/-- The parser inverts the serializer: `json.dumps` output is independently
parseable, and parses back to the serialized value. -/
theorem parseJsonWhole_dumps (j : Json) : parseJsonWhole (dumps j) = some j := by
  unfold parseJsonWhole dumps
  rw [show (String.mk (dumpsL j)).data = dumpsL j from rfl]
  have hfuel : jdepth j ≤ (dumpsL j).length + 1 := by
    have := jdepth_le_len j
    omega
  have hrt := rt_val j ((dumpsL j).length + 1) hfuel [] rfl
  rw [List.append_nil] at hrt
  rw [hrt]
  rfl

/-! ### The serializer never emits a raw newline -/

theorem nl_ne_hexChar {d : Nat} (h : d < 16) : ¬ ('\n' : Char) = hexChar d := by
  have ht := hexChar_toNat h
  intro he
  have e10 : ('\n' : Char).toNat = 10 := rfl
  rw [← he, e10] at ht
  split at ht <;> omega

theorem nl_not_hex4 {n : Nat} : ('\n' : Char) ∉ hex4 n := by
  simp only [hex4, List.mem_cons, List.not_mem_nil, or_false]
  push_neg
  exact ⟨nl_ne_hexChar (Nat.mod_lt _ (by omega)), nl_ne_hexChar (Nat.mod_lt _ (by omega)),
    nl_ne_hexChar (Nat.mod_lt _ (by omega)), nl_ne_hexChar (Nat.mod_lt _ (by omega))⟩

theorem nl_not_escChar (c : Char) : ('\n' : Char) ∉ escChar c := by
  unfold escChar
  split_ifs with h1 h2 h3 h4 h5 h6 h7 h8 h9
  · decide
  · decide
  · decide
  · decide
  · decide
  · decide
  · decide
  · simp only [List.mem_singleton]
    intro he
    rw [← he] at h8
    exact absurd h8 (by decide)
  · simp only [List.mem_cons]
    rintro (he | he | hm)
    · exact absurd he (by decide)
    · exact absurd he (by decide)
    · exact nl_not_hex4 hm
  · simp only [List.mem_append, List.mem_cons]
    rintro ((he | he | hm) | (he | he | hm))
    · exact absurd he (by decide)
    · exact absurd he (by decide)
    · exact nl_not_hex4 hm
    · exact absurd he (by decide)
    · exact absurd he (by decide)
    · exact nl_not_hex4 hm

theorem nl_not_escList : ∀ cs : List Char, ('\n' : Char) ∉ escList cs
  | [] => by simp [escList]
  | c :: cs => by
      simp only [escList, List.mem_append]
      rintro (h | h)
      · exact nl_not_escChar c h
      · exact nl_not_escList cs h

theorem nl_ne_digitChar {d : Nat} (h : d < 10) : ¬ ('\n' : Char) = digitChar d := by
  have ht := digitChar_toNat h
  intro he
  have e10 : ('\n' : Char).toNat = 10 := rfl
  rw [← he, e10] at ht
  omega

theorem nl_not_natCharsAux : ∀ (fuel n : Nat), ('\n' : Char) ∉ natCharsAux fuel n := by
  intro fuel
  induction fuel with
  | zero => intro n; simp [natCharsAux]
  | succ f ih =>
    intro n
    simp only [natCharsAux]
    split
    · simp only [List.mem_singleton]
      exact nl_ne_digitChar (by omega)
    · simp only [List.mem_append, List.mem_singleton]
      rintro (h | h)
      · exact ih (n / 10) h
      · exact nl_ne_digitChar (Nat.mod_lt _ (by omega)) h

theorem nl_not_intChars (i : Int) : ('\n' : Char) ∉ intChars i := by
  unfold intChars
  split
  · simp only [List.mem_cons]
    rintro (he | hm)
    · exact absurd he (by decide)
    · exact nl_not_natCharsAux _ _ hm
  · exact nl_not_natCharsAux _ _

mutual

theorem nl_not_dumpsL : ∀ j : Json, ('\n' : Char) ∉ dumpsL j
  | .null => by intro hm; simp only [dumpsL] at hm; simp at hm
  | .bool true => by intro hm; simp only [dumpsL] at hm; simp at hm
  | .bool false => by intro hm; simp only [dumpsL] at hm; simp at hm
  | .num i => by simp only [dumpsL]; exact nl_not_intChars i
  | .str s => by
      intro hm
      simp only [dumpsL, strLit, List.cons_append, List.mem_cons, List.mem_append,
        List.mem_singleton, List.not_mem_nil, or_false, false_or] at hm
      casesm* _ ∨ _
      all_goals first
        | exact nl_not_escList s.data ‹_›
        | simp_all
  | .arr [] => by intro hm; simp only [dumpsL] at hm; simp at hm
  | .arr (x :: xs) => by
      intro hm
      simp only [dumpsL, List.cons_append, List.mem_cons, List.mem_append,
        List.mem_singleton, List.not_mem_nil, or_false, false_or] at hm
      casesm* _ ∨ _
      all_goals first
        | exact nl_not_dumpsL x ‹_›
        | exact nl_not_dumpsArr xs ‹_›
        | simp_all
  | .obj [] => by intro hm; simp only [dumpsL] at hm; simp at hm
  | .obj ((k, v) :: kvs) => by
      intro hm
      simp only [dumpsL, strLit, List.cons_append, List.mem_cons, List.mem_append,
        List.mem_singleton, List.not_mem_nil, or_false, false_or] at hm
      casesm* _ ∨ _
      all_goals first
        | exact nl_not_escList k.data ‹_›
        | exact nl_not_dumpsL v ‹_›
        | exact nl_not_dumpsObj kvs ‹_›
        | simp_all

theorem nl_not_dumpsArr : ∀ l : List Json, ('\n' : Char) ∉ dumpsArr l
  | [] => by simp [dumpsArr]
  | y :: ys => by
      intro hm
      simp only [dumpsArr, List.cons_append, List.mem_cons, List.mem_append,
        List.mem_singleton, List.not_mem_nil, or_false, false_or] at hm
      casesm* _ ∨ _
      all_goals first
        | exact nl_not_dumpsL y ‹_›
        | exact nl_not_dumpsArr ys ‹_›
        | simp_all

theorem nl_not_dumpsObj : ∀ kvs : List (String × Json), ('\n' : Char) ∉ dumpsObj kvs
  | [] => by simp [dumpsObj]
  | (k, v) :: kvs => by
      intro hm
      simp only [dumpsObj, strLit, List.cons_append, List.mem_cons, List.mem_append,
        List.mem_singleton, List.not_mem_nil, or_false, false_or] at hm
      casesm* _ ∨ _
      all_goals first
        | exact nl_not_escList k.data ‹_›
        | exact nl_not_dumpsL v ‹_›
        | exact nl_not_dumpsObj kvs ‹_›
        | simp_all

end

/-- A serialized article occupies a single line: `json.dumps` escapes every
newline. -/
theorem nl_not_dumps (j : Json) : ('\n' : Char) ∉ (dumps j).data := nl_not_dumpsL j

/-! ### Splitting a newline-joined body recovers the lines -/

theorem splitCh_no (c : Char) : ∀ {xs : List Char}, c ∉ xs → splitCh c xs = [xs]
  | [], _ => rfl
  | a :: as, h => by
      have ha : ¬ a = c := fun he => h (he ▸ List.mem_cons_self a as)
      have has : c ∉ as := fun hm => h (List.mem_cons_of_mem _ hm)
      simp only [splitCh, splitCh_no c has, if_neg ha]
      rfl

theorem splitCh_app (c : Char) :
    ∀ {xs : List Char} (ys : List Char), c ∉ xs →
      splitCh c (xs ++ c :: ys) = xs :: splitCh c ys
  | [], ys, _ => by
      simp [splitCh]
  | a :: as, ys, h => by
      have ha : ¬ a = c := fun he => h (he ▸ List.mem_cons_self a as)
      have has : c ∉ as := fun hm => h (List.mem_cons_of_mem _ hm)
      simp only [List.cons_append, splitCh, List.append_eq, splitCh_app c ys has, if_neg ha]
      rfl

theorem splitNL_joinNL : ∀ (l : List String), l ≠ [] →
    (∀ s ∈ l, ('\n' : Char) ∉ s.data) → splitNL (joinNL l) = l
  | [], hne, _ => absurd rfl hne
  | [s], _, h => by
      simp only [joinNL, splitNL]
      rw [splitCh_no '\n' (h s (List.mem_singleton.mpr rfl))]
      simp [string_mk_data]
  | s :: s2 :: rest, _, h => by
      simp only [joinNL, splitNL]
      rw [show (s ++ "\n" ++ joinNL (s2 :: rest)).data
          = s.data ++ '\n' :: (joinNL (s2 :: rest)).data by
        rw [String.data_append, String.data_append, List.append_assoc]
        rfl]
      rw [splitCh_app '\n' (joinNL (s2 :: rest)).data (h s (List.mem_cons_self s _))]
      have ih := splitNL_joinNL (s2 :: rest) (by simp)
        (fun t ht => h t (List.mem_cons_of_mem _ ht))
      simp only [splitNL] at ih
      simp only [List.map_cons, string_mk_data, ih]

/-- Splitting the newline-joined serializations recovers exactly one line
per article. -/
theorem splitNL_joinNL_dumps (articles : List Json) (hne : articles ≠ []) :
    splitNL (joinNL (articles.map dumps)) = articles.map dumps := by
  refine splitNL_joinNL (articles.map dumps) (by simpa using hne) ?_
  intro s hs
  obtain ⟨a, _, rfl⟩ := List.mem_map.mp hs
  exact nl_not_dumps a

/-! ### Program-level lemmas and the claims -/

theorem analyze_error (detect : DetectOracle) (text : Json) {m : String}
    (herr : detect text = .error m) :
    analyze_sentiment_with_comprehend detect text
      = ([Event.detectSentiment text "en"], ⟨Json.str "ERROR", Json.obj []⟩) := by
  unfold analyze_sentiment_with_comprehend analyzeAttempt
  rw [herr]

theorem analyze_ok (detect : DetectOracle) (text : Json) {j s sc : Json}
    (hok : detect text = .ok j) (hs : Json.getItem j "Sentiment" = .ok s)
    (hsc : Json.getItem j "SentimentScore" = .ok sc) :
    analyze_sentiment_with_comprehend detect text
      = ([Event.detectSentiment text "en"], ⟨s, sc⟩) := by
  unfold analyze_sentiment_with_comprehend analyzeAttempt
  rw [hok]
  simp only [hs, hsc]

theorem analyze_sentimentOk (detect : DetectOracle) (hdet : detectValid detect) (text : Json) :
    ∃ sd : SentimentData,
      analyze_sentiment_with_comprehend detect text = ([Event.detectSentiment text "en"], sd)
      ∧ ∃ l : String, sd.sentiment = Json.str l
          ∧ (l ∈ comprehend_labels ∨ l = "ERROR") := by
  cases hd : detect text with
  | error m =>
    exact ⟨⟨Json.str "ERROR", Json.obj []⟩, analyze_error detect text hd,
      "ERROR", rfl, Or.inr rfl⟩
  | ok j =>
    obtain ⟨l, sc, hs, hl, hsc⟩ := hdet text j hd
    exact ⟨⟨Json.str l, sc⟩, analyze_ok detect text hd hs hsc, l, rfl, Or.inl hl⟩

theorem build_article_ok (detect : DetectOracle) (hdet : detectValid detect) (r : Json)
    (hwf : wf_result r = true) :
    ∃ (summary art : Json),
      build_article detect r = ([Event.detectSentiment summary "en"], .ok art)
      ∧ sentimentOkB art = true := by
  unfold wf_result at hwf
  simp only [Bool.and_eq_true] at hwf
  obtain ⟨⟨⟨hfields, htitle⟩, hurl⟩, hpub⟩ := hwf
  cases hf : r.getItem "fields" with
  | error e => rw [hf] at hfields; exact absurd hfields (by simp)
  | ok fields =>
    rw [hf] at hfields
    dsimp only at hfields
    cases hg : fields.getD "trailText" (Json.str "No summary available") with
    | error e => rw [hg] at hfields; exact absurd hfields (by simp [Except.isOk, Except.toBool])
    | ok summary =>
      cases ht : r.getItem "webTitle" with
      | error e => rw [ht] at htitle; exact absurd htitle (by simp [Except.isOk, Except.toBool])
      | ok headline =>
        cases hu : r.getItem "webUrl" with
        | error e => rw [hu] at hurl; exact absurd hurl (by simp [Except.isOk, Except.toBool])
        | ok url =>
          cases hp : r.getItem "webPublicationDate" with
          | error e => rw [hp] at hpub; exact absurd hpub (by simp [Except.isOk, Except.toBool])
          | ok pubDate =>
            obtain ⟨sd, hsd, l, hl, hlok⟩ := analyze_sentimentOk detect hdet summary
            refine ⟨summary,
              Json.obj [("headline", headline), ("summary", summary), ("url", url),
                ("sentiment", sd.sentiment), ("sentiment_scores", sd.sentiment_scores),
                ("publication_date", pubDate)], ?_, ?_⟩
            · unfold build_article
              rw [hf]
              dsimp only
              rw [hg]
              dsimp only
              rw [hsd]
              dsimp only
              rw [ht]
              dsimp only
              rw [hu]
              dsimp only
              rw [hp]
            · simp only [sentimentOkB, Json.getItem, List.lookup, hl]
              simp only [comprehend_labels]
              rcases hlok with h | h
              · simp only [comprehend_labels, List.mem_cons, List.not_mem_nil, or_false] at h
                rcases h with h | h | h | h <;> simp_all
              · simp [h]

theorem countHttp_append (a b : List Event) :
    countHttp (a ++ b) = countHttp a + countHttp b := by
  simp [countHttp, List.filter_append]

theorem countDetect_append (a b : List Event) :
    countDetect (a ++ b) = countDetect a + countDetect b := by
  simp [countDetect, List.filter_append]

theorem countPut_append (a b : List Event) :
    countPut (a ++ b) = countPut a + countPut b := by
  simp [countPut, List.filter_append]

theorem build_article_trace (detect : DetectOracle) (r : Json) :
    (build_article detect r).1 = []
    ∨ ∃ s, (build_article detect r).1 = [Event.detectSentiment s "en"] := by
  unfold build_article
  cases r.getItem "fields" with
  | error e => left; rfl
  | ok fields =>
    dsimp only
    cases fields.getD "trailText" (Json.str "No summary available") with
    | error e => left; rfl
    | ok summary =>
      right
      exact ⟨summary, rfl⟩

theorem process_results_filter (detect : DetectOracle) (items : List Json) :
    (process_results detect items).1.filter isHttpEvent = []
    ∧ (process_results detect items).1.filter isPutEvent = [] := by
  induction items with
  | nil => exact ⟨rfl, rfl⟩
  | cons r rs ih =>
    have hb : (build_article detect r).1.filter isHttpEvent = []
        ∧ (build_article detect r).1.filter isPutEvent = [] := by
      rcases build_article_trace detect r with h | ⟨s, h⟩ <;> rw [h] <;>
        exact ⟨rfl, rfl⟩
    simp only [process_results]
    cases hb2 : (build_article detect r).2 with
    | error e => dsimp only; exact hb
    | ok art =>
      dsimp only
      rw [List.filter_append, List.filter_append, hb.1, hb.2, ih.1, ih.2]
      exact ⟨rfl, rfl⟩

theorem process_results_ok (detect : DetectOracle) (hdet : detectValid detect)
    (items : List Json) (hwf : ∀ x ∈ items, wf_result x = true) :
    ∃ evs arts, process_results detect items = (evs, .ok arts)
      ∧ arts.length = items.length
      ∧ (∀ a ∈ arts, sentimentOkB a = true)
      ∧ countDetect evs = items.length := by
  induction items with
  | nil =>
    refine ⟨[], [], rfl, rfl, ?_, rfl⟩
    intro a h
    cases h
  | cons r rs ih =>
    obtain ⟨evs, arts, hpr, hlen, hsent, hcnt⟩ :=
      ih fun x hx => hwf x (List.mem_cons_of_mem r hx)
    obtain ⟨summary, art, hba, hok⟩ :=
      build_article_ok detect hdet r (hwf r (List.mem_cons_self r rs))
    refine ⟨Event.detectSentiment summary "en" :: evs, art :: arts, ?_, ?_, ?_, ?_⟩
    · simp only [process_results, hba, hpr]
      rfl
    · simp [hlen]
    · intro a ha
      rcases List.mem_cons.mp ha with h | h
      · subst h; exact hok
      · exact hsent a h
    · simp only [countDetect, List.filter, isDetectEvent] at hcnt ⊢
      simp [hcnt]

theorem fetch_trace (http : HttpOracle) (detect : DetectOracle)
    (api_key query page_size : Json) (from_date : String) :
    ∃ evs, (fetch_guardian_news http detect api_key query page_size from_date).1
        = Event.httpGet guardian_url (fetch_params api_key query page_size from_date) :: evs
      ∧ evs.filter isHttpEvent = [] ∧ evs.filter isPutEvent = [] := by
  unfold fetch_guardian_news
  dsimp only
  cases http guardian_url (fetch_params api_key query page_size from_date) with
  | exn m => exact ⟨[], rfl, rfl, rfl⟩
  | resp r =>
    dsimp only
    by_cases hst : 400 ≤ r.status ∧ r.status < 600
    · rw [if_pos hst]
      exact ⟨[], rfl, rfl, rfl⟩
    · rw [if_neg hst]
      cases r.body.getItem "response" with
      | error e => exact ⟨[], rfl, rfl, rfl⟩
      | ok respV =>
        dsimp only
        cases respV.getItem "status" with
        | error e => exact ⟨[], rfl, rfl, rfl⟩
        | ok st =>
          dsimp only
          by_cases hok : jsonIsStr st "ok" = true
          · rw [if_pos hok]
            cases respV.getItem "results" with
            | error e => exact ⟨[], rfl, rfl, rfl⟩
            | ok results =>
              dsimp only
              cases results.iterElems with
              | error e => exact ⟨[], rfl, rfl, rfl⟩
              | ok items =>
                dsimp only
                have hf := process_results_filter detect items
                cases hpa : (process_results detect items).2 with
                | error e => exact ⟨(process_results detect items).1, rfl, hf.1, hf.2⟩
                | ok as => exact ⟨(process_results detect items).1, rfl, hf.1, hf.2⟩
          · rw [if_neg hok]
            cases respV.getD "message" (Json.str "Unknown error") with
            | error e => exact ⟨[], rfl, rfl, rfl⟩
            | ok m => exact ⟨[], rfl, rfl, rfl⟩

theorem fetch_filter_http (http : HttpOracle) (detect : DetectOracle)
    (api_key query page_size : Json) (from_date : String) :
    (fetch_guardian_news http detect api_key query page_size from_date).1.filter isHttpEvent
      = [Event.httpGet guardian_url (fetch_params api_key query page_size from_date)] := by
  obtain ⟨evs, h1, h2, _⟩ := fetch_trace http detect api_key query page_size from_date
  rw [h1]
  simp [List.filter, isHttpEvent, h2]

theorem fetch_filter_put (http : HttpOracle) (detect : DetectOracle)
    (api_key query page_size : Json) (from_date : String) :
    (fetch_guardian_news http detect api_key query page_size from_date).1.filter isPutEvent
      = [] := by
  obtain ⟨evs, h1, _, h3⟩ := fetch_trace http detect api_key query page_size from_date
  rw [h1]
  simp [List.filter, isPutEvent, h3]

theorem fetch_exn (http : HttpOracle) (detect : DetectOracle)
    (api_key query page_size : Json) (from_date : String) (msg : String)
    (hh : http guardian_url (fetch_params api_key query page_size from_date) = .exn msg) :
    fetch_guardian_news http detect api_key query page_size from_date
      = ([Event.httpGet guardian_url (fetch_params api_key query page_size from_date)],
         .ok (.failure "RequestException" (Json.str msg))) := by
  unfold fetch_guardian_news
  dsimp only
  rw [hh]

theorem fetch_status_err (http : HttpOracle) (detect : DetectOracle)
    (api_key query page_size : Json) (from_date : String) (r : HttpResponse)
    (hh : http guardian_url (fetch_params api_key query page_size from_date) = .resp r)
    (h4 : 400 ≤ r.status) (h6 : r.status < 600) :
    fetch_guardian_news http detect api_key query page_size from_date
      = ([Event.httpGet guardian_url (fetch_params api_key query page_size from_date)],
         .ok (.failure "RequestException"
           (Json.str (http_error_msg r.status r.reason r.url)))) := by
  unfold fetch_guardian_news
  dsimp only
  rw [hh]
  dsimp only
  rw [if_pos ⟨h4, h6⟩]

theorem fetch_api_err (http : HttpOracle) (detect : DetectOracle)
    (api_key query page_size : Json) (from_date : String) (r : HttpResponse)
    (respV st m : Json)
    (hh : http guardian_url (fetch_params api_key query page_size from_date) = .resp r)
    (hst : ¬ (400 ≤ r.status ∧ r.status < 600))
    (hr : r.body.getItem "response" = .ok respV)
    (hs : respV.getItem "status" = .ok st)
    (hnok : jsonIsStr st "ok" = false)
    (hm : respV.getD "message" (Json.str "Unknown error") = .ok m) :
    fetch_guardian_news http detect api_key query page_size from_date
      = ([Event.httpGet guardian_url (fetch_params api_key query page_size from_date)],
         .ok (.failure "API response error" m)) := by
  unfold fetch_guardian_news
  dsimp only
  rw [hh]
  dsimp only
  rw [if_neg hst, hr]
  dsimp only
  rw [hs]
  dsimp only
  rw [if_neg (by simp [hnok]), hm]

theorem fetch_success (http : HttpOracle) (detect : DetectOracle)
    (api_key query page_size : Json) (from_date : String) (r : HttpResponse)
    (respV results : Json) (items : List Json)
    (hdet : detectValid detect)
    (hh : http guardian_url (fetch_params api_key query page_size from_date) = .resp r)
    (hst : ¬ (400 ≤ r.status ∧ r.status < 600))
    (hr : r.body.getItem "response" = .ok respV)
    (hs : respV.getItem "status" = .ok (Json.str "ok"))
    (hres : respV.getItem "results" = .ok results)
    (hit : results.iterElems = .ok items)
    (hwf : ∀ x ∈ items, wf_result x = true) :
    ∃ evs arts,
      fetch_guardian_news http detect api_key query page_size from_date
        = (Event.httpGet guardian_url (fetch_params api_key query page_size from_date) :: evs,
           .ok (.articles arts))
      ∧ arts.length = items.length
      ∧ (∀ a ∈ arts, sentimentOkB a = true)
      ∧ countDetect evs = items.length := by
  obtain ⟨evs, arts, hpr, hlen, hsent, hcnt⟩ := process_results_ok detect hdet items hwf
  refine ⟨evs, arts, ?_, hlen, hsent, hcnt⟩
  unfold fetch_guardian_news
  dsimp only
  rw [hh]
  dsimp only
  rw [if_neg hst, hr]
  dsimp only
  rw [hs]
  dsimp only
  rw [if_pos (by rfl), hres]
  dsimp only
  rw [hit]
  dsimp only
  rw [hpr]

theorem fetch_range_ok_accum (http : HttpOracle) (detect : DetectOracle)
    (api_key query page_size : Json) (today : Int) (is : List Nat) (arts : List Json)
    (h : (fetch_range http detect api_key query page_size today is).2 = .ok arts) :
    arts = accumOver http detect api_key query page_size today is := by
  induction is generalizing arts with
  | nil =>
    simp only [fetch_range] at h
    cases h
    rfl
  | cons i rest ih =>
    simp only [fetch_range] at h
    cases hf : (fetch_guardian_news http detect api_key query page_size
        (strftime_ymd (today - (i : Int)))).2 with
    | error e => rw [hf] at h; cases h
    | ok fr =>
      rw [hf] at h
      dsimp only at h
      cases h2 : (fetch_range http detect api_key query page_size today rest).2 with
      | error e => rw [h2] at h; cases h
      | ok tail =>
        rw [h2] at h
        dsimp only [Except.map] at h
        cases h
        rw [accumOver, ← ih tail h2]
        congr 1
        unfold dayArticles
        rw [hf]
        cases fr <;> rfl

theorem fetch_range_filter_put (http : HttpOracle) (detect : DetectOracle)
    (api_key query page_size : Json) (today : Int) (is : List Nat) :
    (fetch_range http detect api_key query page_size today is).1.filter isPutEvent = [] := by
  induction is with
  | nil => rfl
  | cons i rest ih =>
    simp only [fetch_range]
    cases hf : (fetch_guardian_news http detect api_key query page_size
        (strftime_ymd (today - (i : Int)))).2 with
    | error e =>
      dsimp only
      have := fetch_filter_put http detect api_key query page_size
        (strftime_ymd (today - (i : Int)))
      exact this
    | ok fr =>
      dsimp only
      rw [List.filter_append, ih,
        fetch_filter_put http detect api_key query page_size
          (strftime_ymd (today - (i : Int)))]
      rfl

theorem fetch_range_filter_http (http : HttpOracle) (detect : DetectOracle)
    (api_key query page_size : Json) (today : Int) (is : List Nat) (arts : List Json)
    (h : (fetch_range http detect api_key query page_size today is).2 = .ok arts) :
    (fetch_range http detect api_key query page_size today is).1.filter isHttpEvent
      = is.map (fun i : Nat =>
          Event.httpGet guardian_url
            (fetch_params api_key query page_size (strftime_ymd (today - (i : Int))))) := by
  induction is generalizing arts with
  | nil => rfl
  | cons i rest ih =>
    simp only [fetch_range] at h ⊢
    revert h
    cases hf : (fetch_guardian_news http detect api_key query page_size
        (strftime_ymd (today - (i : Int)))).2 with
    | error e =>
      intro h
      dsimp only at h
      cases h
    | ok fr =>
      intro h
      dsimp only at h ⊢
      cases h2 : (fetch_range http detect api_key query page_size today rest).2 with
      | error e => rw [h2] at h; dsimp only [Except.map] at h; cases h
      | ok tail =>
        rw [List.filter_append, ih tail h2,
          fetch_filter_http http detect api_key query page_size
            (strftime_ymd (today - (i : Int))), List.map]
        rfl

theorem dayArticles_congr (http http2 : HttpOracle) (detect : DetectOracle)
    (api_key query page_size : Json) (d : String)
    (hag : http guardian_url (fetch_params api_key query page_size d)
        = http2 guardian_url (fetch_params api_key query page_size d)) :
    dayArticles http detect api_key query page_size d
      = dayArticles http2 detect api_key query page_size d := by
  unfold dayArticles fetch_guardian_news
  dsimp only
  rw [hag]

theorem dayArticles_failure (http : HttpOracle) (detect : DetectOracle)
    (api_key query page_size : Json) (d : String) (kind : String) (msg : Json)
    (hfail : (fetch_guardian_news http detect api_key query page_size d).2
        = .ok (.failure kind msg)) :
    dayArticles http detect api_key query page_size d = [] := by
  unfold dayArticles
  rw [hfail]

theorem write_to_s3_trace (put : PutOracle) (articles : List Json) :
    (write_to_s3 put articles).1
      = [Event.putObject s3_bucket_name s3_key (joinNL (articles.map dumps))
          "application/json"] := by
  unfold write_to_s3
  dsimp only
  cases put s3_bucket_name s3_key (joinNL (articles.map dumps)) "application/json" <;> rfl

theorem write_to_s3_fail (put : PutOracle) (articles : List Json) (m : String)
    (hfail : put s3_bucket_name s3_key (joinNL (articles.map dumps)) "application/json"
        = .error m) :
    (write_to_s3 put articles).2 = .error (.storageError m) := by
  unfold write_to_s3
  dsimp only
  rw [hfail]

theorem write_to_s3_ok (put : PutOracle) (articles : List Json)
    (hok : put s3_bucket_name s3_key (joinNL (articles.map dumps)) "application/json"
        = .ok ()) :
    (write_to_s3 put articles).2 = .ok () := by
  unfold write_to_s3
  dsimp only
  rw [hok]

theorem lambda_handler_absent (http : HttpOracle) (detect : DetectOracle) (put : PutOracle)
    (today : Int) (event : List (String × Json))
    (habs : event.lookup "api_key" = none) :
    lambda_handler http detect put today event
      = ([], .ok ⟨400, dumps (Json.obj [("error", Json.str "API key is required")])⟩) := by
  unfold lambda_handler
  dsimp only
  rw [if_pos]
  show falsy (apiKeyOf event) = true
  unfold apiKeyOf
  rw [habs]
  rfl

theorem lambda_handler_ok (http : HttpOracle) (detect : DetectOracle) (put : PutOracle)
    (today : Int) (event : List (String × Json)) (arts : List Json)
    (htruthy : falsy (apiKeyOf event) = false)
    (hloop : (fetch_range http detect (apiKeyOf event) (queryOf event) (pageSizeOf event)
        today (List.range 5)).2 = .ok arts) :
    lambda_handler http detect put today event
      = if arts.isEmpty then
          ((fetch_range http detect (apiKeyOf event) (queryOf event) (pageSizeOf event)
              today (List.range 5)).1,
           .ok ⟨500, dumps (Json.obj [("error", Json.str "No articles fetched")])⟩)
        else
          match (write_to_s3 put arts).2 with
          | .error e =>
            ((fetch_range http detect (apiKeyOf event) (queryOf event) (pageSizeOf event)
                today (List.range 5)).1 ++ (write_to_s3 put arts).1, .error e)
          | .ok _ =>
            ((fetch_range http detect (apiKeyOf event) (queryOf event) (pageSizeOf event)
                today (List.range 5)).1 ++ (write_to_s3 put arts).1,
             .ok ⟨200, "Data written to S3: s3://" ++ s3_bucket_name ++ "/" ++ s3_key⟩) := by
  unfold lambda_handler
  dsimp only
  rw [if_neg (by simp [htruthy])]
  revert hloop
  cases hfr : fetch_range http detect (apiKeyOf event) (queryOf event) (pageSizeOf event)
      today (List.range 5) with
  | mk evs res =>
    intro hloop
    dsimp only at hloop
    subst hloop
    rfl

theorem detectGood_valid : detectValid detectGood := by
  intro t j h
  cases h
  exact ⟨"NEUTRAL", Json.obj [], rfl, by decide, rfl⟩

/-- Claim C1: when the invocation event has no api_key entry, the handler
returns exactly statusCode 400 with the json error body
"API key is required", and its trace is empty: no search request, no
sentiment call and no upload happens before returning. -/
theorem C1_missing_api_key (http : HttpOracle) (detect : DetectOracle) (put : PutOracle)
    (today : Int) (event : List (String × Json))
    (habs : event.lookup "api_key" = none) :
    lambda_handler http detect put today event
      = ([], .ok ⟨400, dumps (Json.obj [("error", Json.str "API key is required")])⟩)
    ∧ dumps (Json.obj [("error", Json.str "API key is required")])
        = "\x7b\"error\": \"API key is required\"\x7d"
    ∧ countHttp (lambda_handler http detect put today event).1 = 0
    ∧ countDetect (lambda_handler http detect put today event).1 = 0
    ∧ countPut (lambda_handler http detect put today event).1 = 0 := by
  have h := lambda_handler_absent http detect put today event habs
  refine ⟨h, rfl, ?_, ?_, ?_⟩ <;> rw [h] <;> rfl

theorem C1_missing_api_key_witness :
    lambda_handler httpExn detectGood putOk 0 []
      = ([], .ok ⟨400, dumps (Json.obj [("error", Json.str "API key is required")])⟩) :=
  (C1_missing_api_key httpExn detectGood putOk 0 [] rfl).1

/-- Claim C2 (amended: the api_key must also be truthy, and the five-day
loop must complete without an uncaught exception): the handler returns
statusCode 500 with body the json error object "No articles fetched" if
and only if the accumulated article list is empty, in which case no upload
happens; when it is non-empty the writer is called exactly once, and if
the upload does not fail the handler returns statusCode 200 with a
confirmation naming the destination. -/
theorem C2_empty_iff_500 (http : HttpOracle) (detect : DetectOracle) (put : PutOracle)
    (today : Int) (event : List (String × Json)) (arts : List Json)
    (htruthy : falsy (apiKeyOf event) = false)
    (hloop : (fetch_range http detect (apiKeyOf event) (queryOf event) (pageSizeOf event)
        today (List.range 5)).2 = .ok arts) :
    ((lambda_handler http detect put today event).2
        = .ok ⟨500, dumps (Json.obj [("error", Json.str "No articles fetched")])⟩ ↔ arts = [])
    ∧ (arts = [] → countPut (lambda_handler http detect put today event).1 = 0)
    ∧ (arts ≠ [] → countPut (lambda_handler http detect put today event).1 = 1)
    ∧ (arts ≠ [] → (write_to_s3 put arts).2 = .ok () →
        (lambda_handler http detect put today event).2
          = .ok ⟨200, "Data written to S3: s3://" ++ s3_bucket_name ++ "/" ++ s3_key⟩) := by
  have h := lambda_handler_ok http detect put today event arts htruthy hloop
  have hput0 : countPut (fetch_range http detect (apiKeyOf event) (queryOf event)
      (pageSizeOf event) today (List.range 5)).1 = 0 := by
    unfold countPut
    rw [fetch_range_filter_put]
    rfl
  have hput1 : countPut (write_to_s3 put arts).1 = 1 := by
    rw [write_to_s3_trace]
    rfl
  cases arts with
  | nil =>
    rw [if_pos List.isEmpty_nil] at h
    refine ⟨⟨fun _ => rfl, fun _ => by rw [h]⟩, fun _ => ?_, ?_, ?_⟩
    · rw [h]
      exact hput0
    · intro hne
      exact absurd rfl hne
    · intro hne
      exact absurd rfl hne
  | cons a as =>
    rw [if_neg (by simp)] at h
    cases hw : (write_to_s3 put (a :: as)).2 with
    | error e =>
      rw [hw] at h
      refine ⟨⟨fun hc => ?_, fun hc => ?_⟩, fun hc => ?_, fun _ => ?_, fun _ hc => ?_⟩
      · rw [h] at hc
        cases hc
      · cases hc
      · cases hc
      · rw [h]
        show countPut (_ ++ _) = 1
        rw [countPut_append, hput0, hput1]
      · cases hc
    | ok u =>
      rw [hw] at h
      refine ⟨⟨fun hc => ?_, fun hc => ?_⟩, fun hc => ?_, fun _ => ?_, fun _ _ => ?_⟩
      · rw [h] at hc
        simp only [Except.ok.injEq, HandlerResponse.mk.injEq] at hc
        exact absurd hc.1 (by decide)
      · cases hc
      · cases hc
      · rw [h]
        show countPut (_ ++ _) = 1
        rw [countPut_append, hput0, hput1]
      · rw [h]

theorem C2_empty_iff_500_witness :
    (lambda_handler httpExn detectGood putOk 0 eventK).2
      = .ok ⟨500, dumps (Json.obj [("error", Json.str "No articles fetched")])⟩ :=
  ((C2_empty_iff_500 httpExn detectGood putOk 0 eventK [] rfl rfl).1).mpr rfl

theorem C2_counterexample :
    (eventEmptyKey.lookup "api_key").isSome = true
    ∧ lambda_handler httpExn detectGood putOk 0 eventEmptyKey
        = ([], .ok ⟨400, dumps (Json.obj [("error", Json.str "API key is required")])⟩) :=
  ⟨rfl, rfl⟩

/-- Claim C3 (amended: for a non-empty article list): write_to_s3 uploads
one object to the fixed bucket and key with content type application/json
whose body is the newline-join of the serialized articles; splitting that
body on newlines gives back exactly the serialized articles, one line per
article, and every line parses back to its article. -/
theorem C3_ndjson (put : PutOracle) (articles : List Json) (hne : articles ≠ []) :
    (write_to_s3 put articles).1
      = [Event.putObject s3_bucket_name s3_key (joinNL (articles.map dumps))
          "application/json"]
    ∧ splitNL (joinNL (articles.map dumps)) = articles.map dumps
    ∧ (splitNL (joinNL (articles.map dumps))).length = articles.length
    ∧ (splitNL (joinNL (articles.map dumps))).map parseJsonWhole = articles.map some := by
  refine ⟨write_to_s3_trace put articles, splitNL_joinNL_dumps articles hne, ?_, ?_⟩
  · rw [splitNL_joinNL_dumps articles hne, List.length_map]
  · rw [splitNL_joinNL_dumps articles hne, List.map_map]
    apply List.map_congr_left
    intro a _
    show parseJsonWhole (dumps a) = some a
    exact parseJsonWhole_dumps a

theorem C3_ndjson_witness :
    splitNL (joinNL ([Json.obj []].map dumps)) = [Json.obj []].map dumps
    ∧ (splitNL (joinNL ([Json.obj []].map dumps))).map parseJsonWhole
        = [Json.obj []].map some :=
  ⟨(C3_ndjson putOk [Json.obj []] (List.cons_ne_nil _ _)).2.1,
   (C3_ndjson putOk [Json.obj []] (List.cons_ne_nil _ _)).2.2.2⟩

theorem C3_counterexample :
    (splitNL (joinNL (([] : List Json).map dumps))).length = 1
    ∧ ([] : List Json).length = 0 := ⟨rfl, rfl⟩

/-- Claim C4 (amended: the api_key must be truthy and the five-day loop
must complete without an uncaught exception): the search requests of one
invocation are exactly five, one per calendar date in descending recency
order today, today-1, today-2, today-3, today-4, each formatted by the
%Y-%m-%d embedding, and every request sends the same date value as both
the from-date and the to-date parameter. -/
theorem C4_five_dates (http : HttpOracle) (detect : DetectOracle) (put : PutOracle)
    (today : Int) (event : List (String × Json)) (arts : List Json)
    (htruthy : falsy (apiKeyOf event) = false)
    (hloop : (fetch_range http detect (apiKeyOf event) (queryOf event) (pageSizeOf event)
        today (List.range 5)).2 = .ok arts) :
    (lambda_handler http detect put today event).1.filter isHttpEvent
      = [Event.httpGet guardian_url
           (fetch_params (apiKeyOf event) (queryOf event) (pageSizeOf event)
             (strftime_ymd today)),
         Event.httpGet guardian_url
           (fetch_params (apiKeyOf event) (queryOf event) (pageSizeOf event)
             (strftime_ymd (today - 1))),
         Event.httpGet guardian_url
           (fetch_params (apiKeyOf event) (queryOf event) (pageSizeOf event)
             (strftime_ymd (today - 2))),
         Event.httpGet guardian_url
           (fetch_params (apiKeyOf event) (queryOf event) (pageSizeOf event)
             (strftime_ymd (today - 3))),
         Event.httpGet guardian_url
           (fetch_params (apiKeyOf event) (queryOf event) (pageSizeOf event)
             (strftime_ymd (today - 4)))]
    ∧ ∀ d : String,
        (fetch_params (apiKeyOf event) (queryOf event) (pageSizeOf event) d).lookup "from-date"
          = some (Json.str d)
        ∧ (fetch_params (apiKeyOf event) (queryOf event) (pageSizeOf event) d).lookup "to-date"
          = some (Json.str d) := by
  constructor
  · have h := lambda_handler_ok http detect put today event arts htruthy hloop
    have hfr := fetch_range_filter_http http detect (apiKeyOf event) (queryOf event)
      (pageSizeOf event) today (List.range 5) arts hloop
    have hlist : (List.range 5).map (fun i : Nat =>
        Event.httpGet guardian_url (fetch_params (apiKeyOf event) (queryOf event)
          (pageSizeOf event) (strftime_ymd (today - (i : Int)))))
        = [Event.httpGet guardian_url (fetch_params (apiKeyOf event) (queryOf event)
            (pageSizeOf event) (strftime_ymd today)),
           Event.httpGet guardian_url (fetch_params (apiKeyOf event) (queryOf event)
            (pageSizeOf event) (strftime_ymd (today - 1))),
           Event.httpGet guardian_url (fetch_params (apiKeyOf event) (queryOf event)
            (pageSizeOf event) (strftime_ymd (today - 2))),
           Event.httpGet guardian_url (fetch_params (apiKeyOf event) (queryOf event)
            (pageSizeOf event) (strftime_ymd (today - 3))),
           Event.httpGet guardian_url (fetch_params (apiKeyOf event) (queryOf event)
            (pageSizeOf event) (strftime_ymd (today - 4)))] := by
      show [Event.httpGet guardian_url (fetch_params (apiKeyOf event) (queryOf event)
          (pageSizeOf event) (strftime_ymd (today - ((0 : Nat) : Int)))), _, _, _, _] = _
      norm_num
    rw [h]
    cases arts with
    | nil =>
      rw [if_pos List.isEmpty_nil]
      dsimp only
      rw [hfr]
      exact hlist
    | cons a as =>
      rw [if_neg (by simp)]
      cases hw : (write_to_s3 put (a :: as)).2 with
      | error e =>
        dsimp only
        rw [List.filter_append, hfr, write_to_s3_trace]
        rw [show (List.filter isHttpEvent [Event.putObject s3_bucket_name s3_key
          (joinNL ((a :: as).map dumps)) "application/json"]) = [] from rfl]
        rw [List.append_nil]
        exact hlist
      | ok u =>
        dsimp only
        rw [List.filter_append, hfr, write_to_s3_trace]
        rw [show (List.filter isHttpEvent [Event.putObject s3_bucket_name s3_key
          (joinNL ((a :: as).map dumps)) "application/json"]) = [] from rfl]
        rw [List.append_nil]
        exact hlist
  · intro d
    exact ⟨rfl, rfl⟩

theorem C4_five_dates_witness :
    (lambda_handler httpExn detectGood putOk 0 eventK).1.filter isHttpEvent
      = [Event.httpGet guardian_url
           (fetch_params (apiKeyOf eventK) (queryOf eventK) (pageSizeOf eventK)
             (strftime_ymd 0)),
         Event.httpGet guardian_url
           (fetch_params (apiKeyOf eventK) (queryOf eventK) (pageSizeOf eventK)
             (strftime_ymd (0 - 1))),
         Event.httpGet guardian_url
           (fetch_params (apiKeyOf eventK) (queryOf eventK) (pageSizeOf eventK)
             (strftime_ymd (0 - 2))),
         Event.httpGet guardian_url
           (fetch_params (apiKeyOf eventK) (queryOf eventK) (pageSizeOf eventK)
             (strftime_ymd (0 - 3))),
         Event.httpGet guardian_url
           (fetch_params (apiKeyOf eventK) (queryOf eventK) (pageSizeOf eventK)
             (strftime_ymd (0 - 4)))] :=
  (C4_five_dates httpExn detectGood putOk 0 eventK [] rfl rfl).1

theorem C4_counterexample :
    countHttp (lambda_handler httpNoResponse detectGood putOk 0 eventK).1 = 1 := rfl

/-- Claim C5 (amended: the result items must carry the keys the loop
subscripts and the sentiment service must answer with Comprehend-shaped
responses): on a successful transport response whose payload status is
"ok" with N result items, fetch_guardian_news returns exactly N articles,
each carrying a sentiment label from the fixed category set or the
sentinel "ERROR", with exactly one sentiment call per result item. -/
theorem C5_ok_status_articles (http : HttpOracle) (detect : DetectOracle)
    (api_key query page_size : Json) (from_date : String) (r : HttpResponse)
    (respV results : Json) (items : List Json)
    (hdet : detectValid detect)
    (hh : http guardian_url (fetch_params api_key query page_size from_date) = .resp r)
    (hst : ¬ (400 ≤ r.status ∧ r.status < 600))
    (hr : r.body.getItem "response" = .ok respV)
    (hs : respV.getItem "status" = .ok (Json.str "ok"))
    (hres : respV.getItem "results" = .ok results)
    (hit : results.iterElems = .ok items)
    (hwf : ∀ x ∈ items, wf_result x = true) :
    ∃ evs arts,
      fetch_guardian_news http detect api_key query page_size from_date
        = (Event.httpGet guardian_url (fetch_params api_key query page_size from_date) :: evs,
           .ok (.articles arts))
      ∧ arts.length = items.length
      ∧ (∀ a ∈ arts, sentimentOkB a = true)
      ∧ countDetect evs = items.length :=
  fetch_success http detect api_key query page_size from_date r respV results items
    hdet hh hst hr hs hres hit hwf

theorem C5_ok_status_articles_witness :
    ∃ evs arts,
      fetch_guardian_news httpOneItem detectGood (Json.str "k") (Json.str "latest")
          (Json.num 5) "2025-10-12"
        = (Event.httpGet guardian_url
            (fetch_params (Json.str "k") (Json.str "latest") (Json.num 5) "2025-10-12") :: evs,
           .ok (.articles arts))
      ∧ arts.length = [itemW].length
      ∧ (∀ a ∈ arts, sentimentOkB a = true)
      ∧ countDetect evs = [itemW].length :=
  C5_ok_status_articles httpOneItem detectGood (Json.str "k") (Json.str "latest")
    (Json.num 5) "2025-10-12"
    ⟨200, "OK", guardian_url,
      Json.obj [("response", Json.obj [("status", Json.str "ok"),
        ("results", Json.arr [itemW])])]⟩
    (Json.obj [("status", Json.str "ok"), ("results", Json.arr [itemW])])
    (Json.arr [itemW]) [itemW]
    detectGood_valid rfl (by decide) rfl rfl rfl rfl
    (by
      intro x hx
      rw [List.mem_singleton] at hx
      subst hx
      rfl)

theorem C5_counterexample :
    (fetch_guardian_news httpMissingFields detectGood (Json.str "k") (Json.str "latest")
        (Json.num 5) "2025-10-12").2 = Except.error (PyErr.keyError "fields") := rfl

/-- Claim C6: fetch_guardian_news issues exactly one search request per
call with no retry, and returns a structured failure value rather than
raising: kind "RequestException" with the exception message on a raised
request, kind "RequestException" with the raise_for_status message on a
4xx or 5xx transport status, and kind "API response error" on a non-ok
payload status, carrying the upstream message when present and
"Unknown error" otherwise. -/
theorem C6_failure_modes (http : HttpOracle) (detect : DetectOracle)
    (api_key query page_size : Json) (from_date : String) :
    countHttp (fetch_guardian_news http detect api_key query page_size from_date).1 = 1
    ∧ (∀ msg, http guardian_url (fetch_params api_key query page_size from_date) = .exn msg →
        fetch_guardian_news http detect api_key query page_size from_date
          = ([Event.httpGet guardian_url (fetch_params api_key query page_size from_date)],
             .ok (.failure "RequestException" (Json.str msg))))
    ∧ (∀ r : HttpResponse,
        http guardian_url (fetch_params api_key query page_size from_date) = .resp r →
        400 ≤ r.status → r.status < 600 →
        fetch_guardian_news http detect api_key query page_size from_date
          = ([Event.httpGet guardian_url (fetch_params api_key query page_size from_date)],
             .ok (.failure "RequestException"
               (Json.str (http_error_msg r.status r.reason r.url)))))
    ∧ (∀ (r : HttpResponse) (kvs : List (String × Json)) (st : Json),
        http guardian_url (fetch_params api_key query page_size from_date) = .resp r →
        ¬ (400 ≤ r.status ∧ r.status < 600) →
        r.body.getItem "response" = .ok (Json.obj kvs) →
        (Json.obj kvs).getItem "status" = .ok st →
        jsonIsStr st "ok" = false →
        fetch_guardian_news http detect api_key query page_size from_date
          = ([Event.httpGet guardian_url (fetch_params api_key query page_size from_date)],
             .ok (.failure "API response error"
               ((kvs.lookup "message").getD (Json.str "Unknown error"))))) := by
  refine ⟨?_, ?_, ?_, ?_⟩
  · unfold countHttp
    rw [fetch_filter_http]
    rfl
  · intro msg hh
    exact fetch_exn http detect api_key query page_size from_date msg hh
  · intro r hh h4 h6
    exact fetch_status_err http detect api_key query page_size from_date r hh h4 h6
  · intro r kvs st hh hst hr hs hnok
    exact fetch_api_err http detect api_key query page_size from_date r (Json.obj kvs) st
      ((kvs.lookup "message").getD (Json.str "Unknown error")) hh hst hr hs hnok rfl

theorem C6_failure_modes_witness :
    fetch_guardian_news httpExn detectGood (Json.str "k") (Json.str "latest")
        (Json.num 5) "2025-10-12"
      = ([Event.httpGet guardian_url
           (fetch_params (Json.str "k") (Json.str "latest") (Json.num 5) "2025-10-12")],
         .ok (.failure "RequestException" (Json.str "boom"))) :=
  (C6_failure_modes httpExn detectGood (Json.str "k") (Json.str "latest")
    (Json.num 5) "2025-10-12").2.1 "boom" rfl

/-- Claim C7: per-day failure isolation, for runs whose loop completes:
the accumulated list decomposes day by day; a date whose fetch returns a
failure value contributes zero articles; and every other day contributes
exactly what it would with any oracle that agrees on that day request, in
particular one on which the failing day does not fail. -/
theorem C7_day_isolation (http http2 : HttpOracle) (detect : DetectOracle)
    (api_key query page_size : Json) (today : Int) (d0 : Nat)
    (arts : List Json) (kind : String) (msg : Json)
    (hloop : (fetch_range http detect api_key query page_size today (List.range 5)).2
        = .ok arts)
    (hfail : (fetch_guardian_news http detect api_key query page_size
        (strftime_ymd (today - (d0 : Int)))).2 = .ok (.failure kind msg))
    (hagree : ∀ i : Nat, i ≠ d0 →
        http guardian_url
            (fetch_params api_key query page_size (strftime_ymd (today - (i : Int))))
          = http2 guardian_url
            (fetch_params api_key query page_size (strftime_ymd (today - (i : Int))))) :
    arts = accumOver http detect api_key query page_size today (List.range 5)
    ∧ dayArticles http detect api_key query page_size (strftime_ymd (today - (d0 : Int))) = []
    ∧ ∀ i : Nat, i ≠ d0 →
        dayArticles http detect api_key query page_size (strftime_ymd (today - (i : Int)))
          = dayArticles http2 detect api_key query page_size
              (strftime_ymd (today - (i : Int))) := by
  refine ⟨fetch_range_ok_accum http detect api_key query page_size today (List.range 5)
    arts hloop, ?_, ?_⟩
  · exact dayArticles_failure http detect api_key query page_size
      (strftime_ymd (today - (d0 : Int))) kind msg hfail
  · intro i hi
    exact dayArticles_congr http http2 detect api_key query page_size
      (strftime_ymd (today - (i : Int))) (hagree i hi)

theorem C7_day_isolation_witness :
    ([] : List Json) = accumOver httpExn detectGood (Json.str "k") (Json.str "latest")
        (Json.num 5) 0 (List.range 5)
    ∧ dayArticles httpExn detectGood (Json.str "k") (Json.str "latest") (Json.num 5)
        (strftime_ymd (0 - ((2 : Nat) : Int))) = []
    ∧ ∀ i : Nat, i ≠ 2 →
        dayArticles httpExn detectGood (Json.str "k") (Json.str "latest") (Json.num 5)
            (strftime_ymd (0 - (i : Int)))
          = dayArticles httpExn detectGood (Json.str "k") (Json.str "latest") (Json.num 5)
              (strftime_ymd (0 - (i : Int))) :=
  C7_day_isolation httpExn httpExn detectGood (Json.str "k") (Json.str "latest")
    (Json.num 5) 0 2 [] "RequestException" (Json.str "boom") rfl rfl (fun _ _ => rfl)

/-- Claim C8: analyze_sentiment_with_comprehend never raises: it always
returns after its single sentiment call, on success with the label and
score mapping of the service response, and on any error of the attempt
with exactly the sentinel pair of "ERROR" and an empty mapping. -/
theorem C8_never_raises (detect : DetectOracle) (text : Json) :
    (analyze_sentiment_with_comprehend detect text).1 = [Event.detectSentiment text "en"]
    ∧ (∀ j s sc, detect text = .ok j → Json.getItem j "Sentiment" = .ok s →
        Json.getItem j "SentimentScore" = .ok sc →
        (analyze_sentiment_with_comprehend detect text).2 = ⟨s, sc⟩)
    ∧ ((analyzeAttempt detect text).isOk = false →
        (analyze_sentiment_with_comprehend detect text).2
          = ⟨Json.str "ERROR", Json.obj []⟩) := by
  refine ⟨rfl, ?_, ?_⟩
  · intro j s sc hok hs hsc
    rw [analyze_ok detect text hok hs hsc]
  · intro herr
    show (match analyzeAttempt detect text with
      | .ok sd => sd
      | .error _ => ⟨Json.str "ERROR", Json.obj []⟩) = _
    cases ha : analyzeAttempt detect text with
    | ok sd =>
      rw [ha] at herr
      cases herr
    | error e => rfl

theorem C8_never_raises_witness :
    (analyze_sentiment_with_comprehend (fun _ => .error "service down") (Json.str "x")).2
      = ⟨Json.str "ERROR", Json.obj []⟩ :=
  (C8_never_raises (fun _ => .error "service down") (Json.str "x")).2.2 rfl

/-- Claim C9: when the upload fails, write_to_s3 re-raises the failure as
a storage error to its caller, and an invocation that reaches the write
step ends with that uncaught storage error instead of any statusCode
envelope. -/
theorem C9_write_failure_propagates (put : PutOracle) (articles : List Json) (m : String)
    (hfail : put s3_bucket_name s3_key (joinNL (articles.map dumps)) "application/json"
        = .error m) :
    (write_to_s3 put articles).2 = .error (.storageError m)
    ∧ ∀ (http : HttpOracle) (detect : DetectOracle) (today : Int)
        (event : List (String × Json)),
        falsy (apiKeyOf event) = false →
        (fetch_range http detect (apiKeyOf event) (queryOf event) (pageSizeOf event)
            today (List.range 5)).2 = .ok articles →
        articles ≠ [] →
        (lambda_handler http detect put today event).2 = .error (.storageError m) := by
  have hw := write_to_s3_fail put articles m hfail
  refine ⟨hw, ?_⟩
  intro http detect today event htruthy hloop hne
  have h := lambda_handler_ok http detect put today event articles htruthy hloop
  rw [if_neg (by simp [hne])] at h
  rw [hw] at h
  rw [h]

theorem C9_write_failure_propagates_witness :
    (write_to_s3 putFail [Json.obj []]).2 = .error (.storageError "denied") :=
  (C9_write_failure_propagates putFail [Json.obj []] "denied" rfl).1

/-- Claim C10: fetch_guardian_news is not total over well-formed
transport responses: on a 200 response whose payload lacks the "response"
key it raises an uncaught KeyError, which propagates out of
lambda_handler and aborts the invocation. -/
theorem C10_malformed_payload_raises :
    (fetch_guardian_news httpNoResponse detectGood (Json.str "k") (Json.str "latest")
        (Json.num 5) (strftime_ymd 0)).2 = Except.error (PyErr.keyError "response")
    ∧ (lambda_handler httpNoResponse detectGood putOk 0 eventK).2
        = Except.error (PyErr.keyError "response") := ⟨rfl, rfl⟩
